import Mathlib

/-!
# autoptt: sub-image search and scan loops

A shallow embedding of `main.go` (the pixel comparator, the verifier, the
raster search and the two scan loops) together with theorems about it.

Conventions of the embedding.

* Go `int` values are Lean `Int`.  A loop variable of the program starts at
  `0` and is increased by its stride `s >= 1` only while it is below an image
  dimension: after the first increment it equals `s`, and it is increased
  again only if `s` itself is below that dimension, so every value it takes
  is either `s` or at most twice an image dimension.  Coordinates passed to
  `At` are sums of an image origin and values below an image dimension.  Hence
  no machine overflow can occur for images of any realisable size, and the
  model uses unbounded integers.
* A `color.Color` is represented by the four values its `RGBA()` method
  returns.
* An `image.Image` is its bounds rectangle and its `At` function.
* The `for` loops of the program are modelled by one combinator `forLoop`
  running on fuel; running out of fuel is a separate outcome (`outOfFuel`,
  `none` at the top level), and the theorems show that it never happens.
-/

namespace Autoptt

/-! ## Configuration constants (`main.go`, lines 24-36) -/

def REGION_X : Int := 0
def REGION_Y : Int := 0
def REGION_W : Int := 730
def REGION_H : Int := 1080
def TOLERANCE : Int := 22
def SCAN_STEP : Int := 1
def SAMPLE_STEP : Int := 2
def INTERVAL_SEC : Nat := 30
def CLICK_HOLD_MS : Nat := 70

/-! ## Data model -/

/-- The four values returned by `color.Color.RGBA()` (each a `uint32`). -/
structure Color where
  r : Nat
  g : Nat
  b : Nat
  a : Nat
deriving DecidableEq, Repr

/-- An `image.Rectangle`: `Min` and `Max` points. -/
structure Rectangle where
  minX : Int
  minY : Int
  maxX : Int
  maxY : Int
deriving DecidableEq, Repr

/-- `Rectangle.Dx`: the width. -/
def Rectangle.Dx (r : Rectangle) : Int := r.maxX - r.minX

/-- `Rectangle.Dy`: the height. -/
def Rectangle.Dy (r : Rectangle) : Int := r.maxY - r.minY

/-- An `image.Image`: its `Bounds()` and its `At(x, y)` method. -/
structure Image where
  Bounds : Rectangle
  At : Int → Int → Color

/-! ## Small helpers (`main.go`, lines 439-450) -/

/-- `absInt`. -/
def absInt (x : Int) : Int :=
  if x < 0 then -x else x

/-- The program's own `max` on `int`. -/
protected def max (a b : Int) : Int :=
  if a > b then a else b

/-- `almostEqualRGBA` (`main.go`, lines 430-437). -/
def almostEqualRGBA (c1 c2 : Color) (tol : Int) : Bool :=
  decide (absInt (((c1.r >>> 8 : Nat) : Int) - ((c2.r >>> 8 : Nat) : Int)) ≤ tol) &&
  decide (absInt (((c1.g >>> 8 : Nat) : Int) - ((c2.g >>> 8 : Nat) : Int)) ≤ tol) &&
  decide (absInt (((c1.b >>> 8 : Nat) : Int) - ((c2.b >>> 8 : Nat) : Int)) ≤ tol) &&
  decide (absInt (((c1.a >>> 8 : Nat) : Int) - ((c2.a >>> 8 : Nat) : Int)) ≤ tol)

/-! ## Loops -/

/-- Outcome of a loop (or of one loop body): the enclosing function executed
`return v`, or control falls through to what follows, or the fuel of the
model ran out. -/
inductive Flow (α : Type) where
  | ret (v : α) : Flow α
  | next : Flow α
  | outOfFuel : Flow α
deriving DecidableEq, Repr

/-- The loop `for i := i0; cond(i); i += s { body(i) }`, started at `i`. -/
def forLoop {α : Type} (cond : Int → Bool) (s : Int) (body : Int → Flow α) :
    Nat → Int → Flow α
  | 0, _ => Flow.outOfFuel
  | fuel + 1, i =>
    if cond i then
      match body i with
      | Flow.next => forLoop cond s body fuel (i + s)
      | Flow.ret v => Flow.ret v
      | Flow.outOfFuel => Flow.outOfFuel
    else Flow.next

/-- Fuel that suffices for a loop from `0` up to and including `m` with a
stride of at least one. -/
def loopFuel (m : Int) : Nat := (m + 1).toNat + 1

/-- Sequencing of two pieces of code: the second runs when the first falls
through. -/
def Flow.andThen {α : Type} (a b : Flow α) : Flow α :=
  match a with
  | Flow.next => b
  | Flow.ret v => Flow.ret v
  | Flow.outOfFuel => Flow.outOfFuel

/-! ## The verifier (`main.go`, lines 390-428) -/

/-- The three loops of `verifyMatch` followed by its final `return true`. -/
def verifyMatchFlow (screen target : Image) (offX offY tol step : Int) : Flow Bool :=
  let sb := screen.Bounds
  let tb := target.Bounds
  let tw := tb.Dx
  let th := tb.Dy
  (forLoop (fun ty => decide (ty < th)) (Autoptt.max 1 step) (fun ty =>
    forLoop (fun tx => decide (tx < tw)) (Autoptt.max 1 step) (fun tx =>
      if !almostEqualRGBA (screen.At (sb.minX + offX + tx) (sb.minY + offY + ty))
          (target.At (tb.minX + tx) (tb.minY + ty)) tol then Flow.ret false
      else Flow.next) (loopFuel (tw - 1)) 0) (loopFuel (th - 1)) 0).andThen
  ((if step > 1 then
    (forLoop (fun tx => decide (tx < tw)) step (fun tx =>
      if !almostEqualRGBA (screen.At (sb.minX + offX + tx) (sb.minY + offY + th - 1))
          (target.At (tb.minX + tx) (tb.minY + th - 1)) tol then Flow.ret false
      else Flow.next) (loopFuel (tw - 1)) 0).andThen
    (forLoop (fun ty => decide (ty < th)) step (fun ty =>
      if !almostEqualRGBA (screen.At (sb.minX + offX + tw - 1) (sb.minY + offY + ty))
          (target.At (tb.minX + tw - 1) (tb.minY + ty)) tol then Flow.ret false
      else Flow.next) (loopFuel (th - 1)) 0)
  else Flow.next).andThen (Flow.ret true))

/-- `verifyMatch`; `none` stands for a run that exhausted the model's fuel. -/
def verifyMatch (screen target : Image) (offX offY tol step : Int) : Option Bool :=
  match verifyMatchFlow screen target offX offY tol step with
  | Flow.ret v => some v
  | Flow.next => none
  | Flow.outOfFuel => none

/-! ## The search (`main.go`, lines 341-388) -/

/-- The `anchors` slice built at lines 350-353. -/
def anchorList (tw th : Int) : List (Int × Int) :=
  let anchors := [(0, 0), (tw - 1, 0), (0, th - 1), (tw - 1, th - 1)]
  if tw ≥ 5 ∧ th ≥ 5 then anchors ++ [(Int.tdiv tw 2, Int.tdiv th 2)] else anchors

/-- The anchor loop of lines 366-377; the result is the final value of `ok`. -/
def checkAnchors (screen target : Image) (x y tol : Int) : List (Int × Int) → Bool
  | [] => true
  | a :: rest =>
    if !almostEqualRGBA
        (screen.At (screen.Bounds.minX + x + a.1) (screen.Bounds.minY + y + a.2))
        (target.At (target.Bounds.minX + a.1) (target.Bounds.minY + a.2)) tol then false
    else checkAnchors screen target x y tol rest

/-- The body of the inner `for x` loop (lines 357-384) at the offset `(x, y)`. -/
def candidateBody (screen target : Image) (tolerance sampleStep : Int) (y x : Int) :
    Flow (Int × Int × Bool) :=
  let sb := screen.Bounds
  let tb := target.Bounds
  if !almostEqualRGBA (screen.At (sb.minX + x) (sb.minY + y))
      (target.At tb.minX tb.minY) tolerance then Flow.next
  else if !checkAnchors screen target x y tolerance (anchorList tb.Dx tb.Dy) then Flow.next
  else
    match verifyMatch screen target x y tolerance sampleStep with
    | some true => Flow.ret (x, y, true)
    | some false => Flow.next
    | none => Flow.outOfFuel

/-- `findSubImageFast`; `none` stands for a run that exhausted the model's
fuel. -/
def findSubImageFast (screen target : Image) (tolerance scanStep sampleStep : Int) :
    Option (Int × Int × Bool) :=
  let sb := screen.Bounds
  let tb := target.Bounds
  let sw := sb.Dx
  let sh := sb.Dy
  let tw := tb.Dx
  let th := tb.Dy
  if tw = 0 ∨ th = 0 ∨ sw < tw ∨ sh < th then some (-1, -1, false)
  else
    match forLoop (fun y => decide (y ≤ sh - th)) (Autoptt.max 1 scanStep) (fun y =>
        forLoop (fun x => decide (x ≤ sw - tw)) (Autoptt.max 1 scanStep)
          (candidateBody screen target tolerance sampleStep y) (loopFuel (sw - tw)) 0)
        (loopFuel (sh - th)) 0 with
    | Flow.ret r => some r
    | Flow.next => some (-1, -1, false)
    | Flow.outOfFuel => none

/-! ## The search instrumented with the pixel reads it performs

The functions below are the functions above, line for line, with every call
of `At` recorded: they return the list of reads next to the result. -/

/-- One call of `At`: on the screen image or on the target image, with the
coordinates passed to it. -/
inductive Read where
  | screen (x y : Int) : Read
  | target (x y : Int) : Read
deriving DecidableEq, Repr

/-- The comparison `almostEqualRGBA(screen.At(sx, sy), target.At(tx, ty), tol)`
with its two reads. -/
def comparePixels (screen target : Image) (sx sy tx ty tol : Int) : List Read × Bool :=
  ([Read.screen sx sy, Read.target tx ty],
    almostEqualRGBA (screen.At sx sy) (target.At tx ty) tol)

/-- The loop `forLoop` with the reads of its iterations collected in order. -/
def forLoopT {α : Type} (cond : Int → Bool) (s : Int) (body : Int → List Read × Flow α) :
    Nat → Int → List Read × Flow α
  | 0, _ => ([], Flow.outOfFuel)
  | fuel + 1, i =>
    if cond i then
      match body i with
      | (t, Flow.next) =>
        ((t ++ (forLoopT cond s body fuel (i + s)).1), (forLoopT cond s body fuel (i + s)).2)
      | (t, Flow.ret v) => (t, Flow.ret v)
      | (t, Flow.outOfFuel) => (t, Flow.outOfFuel)
    else ([], Flow.next)

/-- Sequencing with reads: `Flow.andThen` on the results, the reads of the
second part appended when it runs. -/
def andThenT {α : Type} (a b : List Read × Flow α) : List Read × Flow α :=
  match a with
  | (t, Flow.next) => (t ++ b.1, b.2)
  | (t, Flow.ret v) => (t, Flow.ret v)
  | (t, Flow.outOfFuel) => (t, Flow.outOfFuel)

/-- One pixel test of a verifier loop: `return false` on a mismatch. -/
def checkT (c : List Read × Bool) : List Read × Flow Bool :=
  (c.1, if !c.2 then Flow.ret false else Flow.next)

/-- `verifyMatchFlow` with its reads. -/
def verifyMatchFlowT (screen target : Image) (offX offY tol step : Int) :
    List Read × Flow Bool :=
  let sb := screen.Bounds
  let tb := target.Bounds
  let tw := tb.Dx
  let th := tb.Dy
  andThenT (forLoopT (fun ty => decide (ty < th)) (Autoptt.max 1 step) (fun ty =>
    forLoopT (fun tx => decide (tx < tw)) (Autoptt.max 1 step) (fun tx =>
      checkT (comparePixels screen target (sb.minX + offX + tx) (sb.minY + offY + ty)
        (tb.minX + tx) (tb.minY + ty) tol)) (loopFuel (tw - 1)) 0) (loopFuel (th - 1)) 0)
  (andThenT (if step > 1 then
    andThenT (forLoopT (fun tx => decide (tx < tw)) step (fun tx =>
      checkT (comparePixels screen target (sb.minX + offX + tx) (sb.minY + offY + th - 1)
        (tb.minX + tx) (tb.minY + th - 1) tol)) (loopFuel (tw - 1)) 0)
    (forLoopT (fun ty => decide (ty < th)) step (fun ty =>
      checkT (comparePixels screen target (sb.minX + offX + tw - 1) (sb.minY + offY + ty)
        (tb.minX + tw - 1) (tb.minY + ty) tol)) (loopFuel (th - 1)) 0)
  else ([], Flow.next)) ([], Flow.ret true))

/-- `verifyMatch` with its reads. -/
def verifyMatchT (screen target : Image) (offX offY tol step : Int) :
    List Read × Option Bool :=
  match verifyMatchFlowT screen target offX offY tol step with
  | (t, Flow.ret v) => (t, some v)
  | (t, Flow.next) => (t, none)
  | (t, Flow.outOfFuel) => (t, none)

/-- `checkAnchors` with its reads. -/
def checkAnchorsT (screen target : Image) (x y tol : Int) :
    List (Int × Int) → List Read × Bool
  | [] => ([], true)
  | a :: rest =>
    match comparePixels screen target
        (screen.Bounds.minX + x + a.1) (screen.Bounds.minY + y + a.2)
        (target.Bounds.minX + a.1) (target.Bounds.minY + a.2) tol with
    | (t, false) => (t, false)
    | (t, true) =>
      (t ++ (checkAnchorsT screen target x y tol rest).1,
        (checkAnchorsT screen target x y tol rest).2)

/-- `candidateBody` with its reads. -/
def candidateBodyT (screen target : Image) (tolerance sampleStep : Int) (y x : Int) :
    List Read × Flow (Int × Int × Bool) :=
  let sb := screen.Bounds
  let tb := target.Bounds
  match comparePixels screen target (sb.minX + x) (sb.minY + y) tb.minX tb.minY tolerance with
  | (t0, false) => (t0, Flow.next)
  | (t0, true) =>
    match checkAnchorsT screen target x y tolerance (anchorList tb.Dx tb.Dy) with
    | (t1, false) => (t0 ++ t1, Flow.next)
    | (t1, true) =>
      match verifyMatchT screen target x y tolerance sampleStep with
      | (t2, some true) => (t0 ++ t1 ++ t2, Flow.ret (x, y, true))
      | (t2, some false) => (t0 ++ t1 ++ t2, Flow.next)
      | (t2, none) => (t0 ++ t1 ++ t2, Flow.outOfFuel)

/-- `findSubImageFast` with its reads. -/
def findSubImageFastT (screen target : Image) (tolerance scanStep sampleStep : Int) :
    List Read × Option (Int × Int × Bool) :=
  let sb := screen.Bounds
  let tb := target.Bounds
  let sw := sb.Dx
  let sh := sb.Dy
  let tw := tb.Dx
  let th := tb.Dy
  if tw = 0 ∨ th = 0 ∨ sw < tw ∨ sh < th then ([], some (-1, -1, false))
  else
    match forLoopT (fun y => decide (y ≤ sh - th)) (Autoptt.max 1 scanStep) (fun y =>
        forLoopT (fun x => decide (x ≤ sw - tw)) (Autoptt.max 1 scanStep)
          (candidateBodyT screen target tolerance sampleStep y) (loopFuel (sw - tw)) 0)
        (loopFuel (sh - th)) 0 with
    | (t, Flow.ret r) => (t, some r)
    | (t, Flow.next) => (t, some (-1, -1, false))
    | (t, Flow.outOfFuel) => (t, none)

/-- The read lies inside the bounds of the image it is made on
(`image.Point.In`). -/
def Read.inBounds (screen target : Image) : Read → Prop
  | Read.screen x y =>
    screen.Bounds.minX ≤ x ∧ x < screen.Bounds.maxX ∧
      screen.Bounds.minY ≤ y ∧ y < screen.Bounds.maxY
  | Read.target x y =>
    target.Bounds.minX ≤ x ∧ x < target.Bounds.maxX ∧
      target.Bounds.minY ≤ y ∧ y < target.Bounds.maxY

/-! ## The scan loops (`main.go`, lines 189-223 and 256-286) -/

/-- The local type `tgt` of both scan modes. -/
structure tgt where
  name : String
  img : Image
  w : Int
  h : Int

/-- What a scan cycle does to the outside world.  `capture` is one successful
`robotgo.CaptureImg`; `click cx cy` is the sequence of lines 210-214 (save the
pointer location, move to `(cx, cy)`, click, move back); `sleep d` is
`time.Sleep(d * time.Second)`. -/
inductive Event where
  | capture : Event
  | click (cx cy : Int) : Event
  | sleep (seconds : Nat) : Event
deriving DecidableEq, Repr

/-- The `for _, t := range targets` loop of the `autohs` mode (lines 197-220)
on the snapshot `img`, with the current value of `matched`. -/
def autohsTargets (img : Image) : Bool → List tgt → Option (List Event)
  | _, [] => some []
  | matched, t :: rest =>
    match findSubImageFast img t.img TOLERANCE SCAN_STEP SAMPLE_STEP with
    | none => none
    | some (rx, ry, ok) =>
      if !ok || matched then autohsTargets img matched rest
      else some [Event.click (REGION_X + rx + Int.tdiv t.w 2) (REGION_Y + ry + Int.tdiv t.h 2)]

/-- One iteration of the outer `for` of the `autohs` mode (lines 189-222) when
the capture succeeds with the snapshot `img`. -/
def autohsCycle (img : Image) (targets : List tgt) : Option (List Event) :=
  match autohsTargets img false targets with
  | none => none
  | some evs => some (Event.capture :: evs ++ [Event.sleep INTERVAL_SEC])

/-- The `for _, t := range targets` loop of the `autoptt` mode (lines 258-284);
`cap k` is the snapshot returned by the `k`-th capture of the cycle. -/
def autopttTargets (cap : Nat → Image) : Nat → List tgt → Option (List Event)
  | _, [] => some []
  | k, t :: rest =>
    match findSubImageFast (cap k) t.img TOLERANCE SCAN_STEP SAMPLE_STEP with
    | none => none
    | some (rx, ry, ok) =>
      match autopttTargets cap (k + 1) rest with
      | none => none
      | some evs =>
        if !ok then some (Event.capture :: evs)
        else some (Event.capture ::
          Event.click (REGION_X + rx + Int.tdiv t.w 2) (REGION_Y + ry + Int.tdiv t.h 2) ::
          Event.sleep 2 :: evs)

/-- One iteration of the outer `for` of the `autoptt` mode (lines 256-285) when
every capture succeeds. -/
def autopttCycle (cap : Nat → Image) (targets : List tgt) : Option (List Event) :=
  match autopttTargets cap 0 targets with
  | none => none
  | some evs => some (evs ++ [Event.sleep INTERVAL_SEC])

/-! ## Vocabulary of the specification -/

/-- The target pixel `(tx, ty)` matches the region pixel at the same position
shifted by the offset, within the tolerance. -/
def matchAt (screen target : Image) (offX offY tol tx ty : Int) : Bool :=
  almostEqualRGBA
    (screen.At (screen.Bounds.minX + offX + tx) (screen.Bounds.minY + offY + ty))
    (target.At (target.Bounds.minX + tx) (target.Bounds.minY + ty)) tol

/-- Every pixel of the target matches at the offset. -/
def fullMatch (screen target : Image) (tol offX offY : Int) : Prop :=
  ∀ tx ty : Int, 0 ≤ tx → tx < target.Bounds.Dx → 0 ≤ ty → ty < target.Bounds.Dy →
    matchAt screen target offX offY tol tx ty = true

/-- Every pixel sampled by the verifier at stride `step` matches at the
offset: the grid at multiples of `max(1, step)` and, when `step > 1`, the
bottom row and the right column at multiples of `step`. -/
def sampledMatch (screen target : Image) (tol step offX offY : Int) : Prop :=
  (∀ i j : Nat, (i : Int) * max 1 step < target.Bounds.Dx →
      (j : Int) * max 1 step < target.Bounds.Dy →
      matchAt screen target offX offY tol ((i : Int) * max 1 step) ((j : Int) * max 1 step)
        = true) ∧
  (1 < step →
    (∀ i : Nat, (i : Int) * step < target.Bounds.Dx →
      matchAt screen target offX offY tol ((i : Int) * step) (target.Bounds.Dy - 1) = true) ∧
    (∀ j : Nat, (j : Int) * step < target.Bounds.Dy →
      matchAt screen target offX offY tol (target.Bounds.Dx - 1) ((j : Int) * step) = true))

/-- The offset `(x, y)` is a scan position: both coordinates are multiples of
`max(1, scanStep)` and the target placed there fits in the region. -/
def isCandidate (screen target : Image) (scanStep x y : Int) : Prop :=
  (∃ k : Nat, x = (k : Int) * max 1 scanStep) ∧ x ≤ screen.Bounds.Dx - target.Bounds.Dx ∧
  (∃ l : Nat, y = (l : Int) * max 1 scanStep) ∧ y ≤ screen.Bounds.Dy - target.Bounds.Dy

/-- The offset `(x, y)` is accepted: the `(0,0)` pixel check, the checks of
the four corners and, for targets of at least 5 x 5, of the centre, and
`verifyMatch` all succeed there. -/
def isAccepted (screen target : Image) (tol sampleStep x y : Int) : Prop :=
  matchAt screen target x y tol 0 0 = true ∧
  matchAt screen target x y tol (target.Bounds.Dx - 1) 0 = true ∧
  matchAt screen target x y tol 0 (target.Bounds.Dy - 1) = true ∧
  matchAt screen target x y tol (target.Bounds.Dx - 1) (target.Bounds.Dy - 1) = true ∧
  (5 ≤ target.Bounds.Dx → 5 ≤ target.Bounds.Dy →
    matchAt screen target x y tol (target.Bounds.Dx / 2) (target.Bounds.Dy / 2) = true) ∧
  verifyMatch screen target x y tol sampleStep = some true

/-- The offset `(x, y)` comes no later than `(x2, y2)` in raster order. -/
def rasterLe (x y x2 y2 : Int) : Prop :=
  y < y2 ∨ (y = y2 ∧ x ≤ x2)

/-- The clicks among the events of a cycle. -/
def clicksOf (evs : List Event) : List Event :=
  evs.filter (fun e => match e with
    | Event.click _ _ => true
    | _ => false)

/-- The target is found in the snapshot with the configured parameters. -/
def foundIn (img : Image) (t : tgt) : Bool :=
  match findSubImageFast img t.img TOLERANCE SCAN_STEP SAMPLE_STEP with
  | some (_, _, ok) => ok
  | none => false

/-- The region is a copy of the target: same width and height, and the same
pixel at every position relative to the two origins. -/
def isCopy (region target : Image) : Prop :=
  region.Bounds.Dx = target.Bounds.Dx ∧ region.Bounds.Dy = target.Bounds.Dy ∧
  ∀ i j : Int, 0 ≤ i → i < target.Bounds.Dx → 0 ≤ j → j < target.Bounds.Dy →
    region.At (region.Bounds.minX + i) (region.Bounds.minY + j) =
      target.At (target.Bounds.minX + i) (target.Bounds.minY + j)

/-- The short delays (`time.Sleep(2 * time.Second)`) among the events of a
cycle. -/
def shortDelaysOf (evs : List Event) : List Event :=
  evs.filter (fun e => decide (e = Event.sleep 2))

/-- The captures among the events of a cycle. -/
def capturesOf (evs : List Event) : List Event :=
  evs.filter (fun e => decide (e = Event.capture))

/-- The full-interval sleeps among the events of a cycle. -/
def intervalSleepsOf (evs : List Event) : List Event :=
  evs.filter (fun e => decide (e = Event.sleep INTERVAL_SEC))

/-- The number of targets of an `autoptt` cycle that are found, each in the
snapshot captured for it; `k` is the index of the first capture. -/
def matchedCount (cap : Nat → Image) : Nat → List tgt → Nat
  | _, [] => 0
  | k, t :: rest => (if foundIn (cap k) t then 1 else 0) + matchedCount cap (k + 1) rest

/-- The read `r` is the read of a pixel of the target, or of the region pixel
under it when the target is placed at the offset. -/
def isPixelRead (screen target : Image) (offX offY : Int) (r : Read) : Prop :=
  ∃ tx ty : Int, 0 ≤ tx ∧ tx < target.Bounds.Dx ∧ 0 ≤ ty ∧ ty < target.Bounds.Dy ∧
    (r = Read.screen (screen.Bounds.minX + offX + tx) (screen.Bounds.minY + offY + ty) ∨
      r = Read.target (target.Bounds.minX + tx) (target.Bounds.minY + ty))

/-! ## Example images and targets -/

/-- An image in the manner of `image.RGBA`: `At` gives the stored pixel
inside the bounds and the zero colour outside. -/
def mkImage (b : Rectangle) (px : Int → Int → Color) : Image :=
  ⟨b, fun x y =>
    if b.minX ≤ x ∧ x < b.maxX ∧ b.minY ≤ y ∧ y < b.maxY then px x y else ⟨0, 0, 0, 0⟩⟩

/-- Opaque black. -/
def colorA : Color := ⟨0, 0, 0, 65535⟩

/-- Opaque white. -/
def colorB : Color := ⟨65535, 65535, 65535, 65535⟩

/-- A 10 x 10 region of colour A with a 3 x 3 block of colour B at `(4, 4)`. -/
def region10 : Image :=
  mkImage ⟨0, 0, 10, 10⟩ (fun x y => if 4 ≤ x ∧ x < 7 ∧ 4 ≤ y ∧ y < 7 then colorB else colorA)

/-- A 3 x 3 target of colour B. -/
def target3 : Image := mkImage ⟨0, 0, 3, 3⟩ (fun _ _ => colorB)

/-- A 3 x 3 region of colour B whose centre pixel is of colour A. -/
def region3hole : Image :=
  mkImage ⟨0, 0, 3, 3⟩ (fun x y => if x = 1 ∧ y = 1 then colorA else colorB)

/-- An image of width and height zero. -/
def emptyImage : Image := mkImage ⟨0, 0, 0, 0⟩ (fun _ _ => colorA)

/-- A 1 x 1 region of colour A. -/
def region1 : Image := mkImage ⟨0, 0, 1, 1⟩ (fun _ _ => colorA)

/-- A 1 x 1 target of colour B. -/
def target1 : Image := mkImage ⟨0, 0, 1, 1⟩ (fun _ _ => colorB)

/-- The 1 x 1 target of colour B as an entry of the target list. -/
def tgt1 : tgt := ⟨"white.png", target1, 1, 1⟩

/-- The 3 x 3 target of colour B as an entry of the target list. -/
def tgt3 : tgt := ⟨"block.png", target3, 3, 3⟩

/-- Opaque mid grey. -/
def colorC : Color := ⟨32768, 32768, 32768, 65535⟩

/-- A 1 x 1 target of colour C as an entry of the target list. -/
def tgtGrey : tgt := ⟨"grey.png", mkImage ⟨0, 0, 1, 1⟩ (fun _ _ => colorC), 1, 1⟩

/-! ## Facts about the helpers -/

theorem max_eq_max (a b : Int) : Autoptt.max a b = max a b := by
  unfold Autoptt.max
  split <;> omega

theorem one_le_max (s : Int) : 1 ≤ Autoptt.max 1 s := by
  rw [max_eq_max]
  omega

theorem max_of_le_one (s : Int) (h : s ≤ 1) : Autoptt.max 1 s = 1 := by
  rw [max_eq_max]
  omega

theorem max_of_one_lt (s : Int) (h : 1 < s) : Autoptt.max 1 s = s := by
  rw [max_eq_max]
  omega

theorem absInt_eq_abs (x : Int) : absInt x = |x| := by
  unfold absInt
  split
  · rw [abs_of_neg (by assumption)]
  · rw [abs_of_nonneg (by omega)]

/-! ## Facts about `forLoop` -/

section Loop

variable {α : Type} {cond : Int → Bool} {s m : Int} {body : Int → Flow α}

theorem stride_nonneg (hs : 1 ≤ s) (k : Nat) : 0 ≤ (k : Int) * s :=
  mul_nonneg (Int.ofNat_nonneg k) (by omega)

theorem stride_succ (i s : Int) (k : Nat) :
    i + ((k + 1 : Nat) : Int) * s = i + s + (k : Int) * s := by
  push_cast
  ring

/-- A loop with enough fuel falls through exactly when every iteration in
range falls through. -/
theorem forLoop_next_iff (hs : 1 ≤ s) (hc : ∀ t, cond t = true ↔ t ≤ m) :
    ∀ (fuel : Nat) (i : Int), (m + 1 - i).toNat < fuel →
      (forLoop cond s body fuel i = Flow.next ↔
        ∀ k : Nat, i + (k : Int) * s ≤ m → body (i + (k : Int) * s) = Flow.next) := by
  intro fuel
  induction fuel with
  | zero => intro i hf; omega
  | succ fuel ih =>
    intro i hf
    rw [forLoop]
    by_cases h : i ≤ m
    · have hci : cond i = true := (hc i).2 h
      have hf2 : (m + 1 - (i + s)).toNat < fuel := by omega
      rw [if_pos hci]
      cases hb : body i with
      | next =>
        simp only
        rw [ih (i + s) hf2]
        constructor
        · intro H k hk
          cases k with
          | zero => simpa using hb
          | succ k =>
            rw [stride_succ] at hk ⊢
            exact H k hk
        · intro H k hk
          have := H (k + 1) (by rw [stride_succ]; exact hk)
          rwa [stride_succ] at this
      | ret v =>
        simp only
        constructor
        · intro H; cases H
        · intro H
          have := H 0 (by simpa using h)
          simp [hb] at this
      | outOfFuel =>
        simp only
        constructor
        · intro H; cases H
        · intro H
          have := H 0 (by simpa using h)
          simp [hb] at this
    · have hci : ¬ (cond i = true) := fun hh => h ((hc i).1 hh)
      rw [if_neg hci]
      simp only [true_iff]
      intro k hk
      have := stride_nonneg hs k
      omega

/-- A loop with enough fuel returns `v` exactly when some iteration in range
returns `v` and all iterations before it fall through. -/
theorem forLoop_ret_iff (hs : 1 ≤ s) (hc : ∀ t, cond t = true ↔ t ≤ m) (v : α) :
    ∀ (fuel : Nat) (i : Int), (m + 1 - i).toNat < fuel →
      (forLoop cond s body fuel i = Flow.ret v ↔
        ∃ k : Nat, i + (k : Int) * s ≤ m ∧ body (i + (k : Int) * s) = Flow.ret v ∧
          ∀ j : Nat, j < k → body (i + (j : Int) * s) = Flow.next) := by
  intro fuel
  induction fuel with
  | zero => intro i hf; omega
  | succ fuel ih =>
    intro i hf
    rw [forLoop]
    by_cases h : i ≤ m
    · have hci : cond i = true := (hc i).2 h
      have hf2 : (m + 1 - (i + s)).toNat < fuel := by omega
      rw [if_pos hci]
      cases hb : body i with
      | next =>
        simp only
        rw [ih (i + s) hf2]
        constructor
        · rintro ⟨k, hk, hv, hlt⟩
          refine ⟨k + 1, by rw [stride_succ]; exact hk, by rw [stride_succ]; exact hv, ?_⟩
          intro j hj
          cases j with
          | zero => simpa using hb
          | succ j =>
            rw [stride_succ]
            exact hlt j (by omega)
        · rintro ⟨k, hk, hv, hlt⟩
          cases k with
          | zero =>
            simp [hb] at hv
          | succ k =>
            rw [stride_succ] at hk hv
            refine ⟨k, hk, hv, ?_⟩
            intro j hj
            have := hlt (j + 1) (by omega)
            rwa [stride_succ] at this
      | ret w =>
        simp only
        constructor
        · intro H
          cases H
          exact ⟨0, by simpa using h, by simpa using hb, by intro j hj; omega⟩
        · rintro ⟨k, hk, hv, hlt⟩
          cases k with
          | zero =>
            simp [hb] at hv
            rw [hv]
          | succ k =>
            have := hlt 0 (by omega)
            simp [hb] at this
      | outOfFuel =>
        simp only
        constructor
        · intro H; cases H
        · rintro ⟨k, hk, hv, hlt⟩
          cases k with
          | zero => simp [hb] at hv
          | succ k =>
            have := hlt 0 (by omega)
            simp [hb] at this
    · have hci : ¬ (cond i = true) := fun hh => h ((hc i).1 hh)
      rw [if_neg hci]
      constructor
      · intro H; cases H
      · rintro ⟨k, hk, -, -⟩
        have := stride_nonneg hs k
        omega

/-- A loop with enough fuel whose body never runs out of fuel does not run
out of fuel. -/
theorem forLoop_ne_outOfFuel (hs : 1 ≤ s) (hc : ∀ t, cond t = true ↔ t ≤ m)
    (hbody : ∀ t, body t ≠ Flow.outOfFuel) :
    ∀ (fuel : Nat) (i : Int), (m + 1 - i).toNat < fuel →
      forLoop cond s body fuel i ≠ Flow.outOfFuel := by
  intro fuel
  induction fuel with
  | zero => intro i hf; omega
  | succ fuel ih =>
    intro i hf
    rw [forLoop]
    by_cases h : i ≤ m
    · have hci : cond i = true := (hc i).2 h
      have hf2 : (m + 1 - (i + s)).toNat < fuel := by omega
      rw [if_pos hci]
      cases hb : body i with
      | next => exact ih (i + s) hf2
      | ret v => simp
      | outOfFuel => exact absurd hb (hbody i)
    · have hci : ¬ (cond i = true) := fun hh => h ((hc i).1 hh)
      rw [if_neg hci]
      simp

theorem loopFuel_enough (m : Int) : (m + 1 - 0).toNat < loopFuel m := by
  unfold loopFuel
  simp

theorem cond_lt_iff (n t : Int) : decide (t < n) = true ↔ t ≤ n - 1 := by
  rw [decide_eq_true_iff]
  omega

theorem cond_le_iff (n t : Int) : decide (t ≤ n) = true ↔ t ≤ n := by
  rw [decide_eq_true_iff]

end Loop

section LoopMore
variable {α : Type} {cond : Int → Bool} {s m : Int} {body : Int → Flow α}

/-- A loop with enough fuel whose body either falls through or returns `v0`
either falls through or returns `v0`. -/
theorem forLoop_next_or_ret (hs : 1 ≤ s) (hc : ∀ t, cond t = true ↔ t ≤ m) (v0 : α)
    (hbody : ∀ t, body t = Flow.next ∨ body t = Flow.ret v0)
    (fuel : Nat) (i : Int) (hf : (m + 1 - i).toNat < fuel) :
    forLoop cond s body fuel i = Flow.next ∨ forLoop cond s body fuel i = Flow.ret v0 := by
  cases h : forLoop cond s body fuel i with
  | next => exact Or.inl rfl
  | ret v =>
    obtain ⟨k, -, hv, -⟩ := (forLoop_ret_iff hs hc v fuel i hf).1 h
    rcases hbody (i + (k : Int) * s) with h1 | h1
    · rw [h1] at hv; cases hv
    · rw [h1] at hv; cases hv; exact Or.inr rfl
  | outOfFuel =>
    refine absurd h (forLoop_ne_outOfFuel hs hc ?_ fuel i hf)
    intro t ht
    rcases hbody t with h1 | h1 <;> rw [h1] at ht <;> cases ht

end LoopMore

/-- A verifier loop `for t := 0; t < n; t += s` that returns `false` at the
first `t` failing the test `p`. -/
theorem checkLoop_spec (p : Int → Bool) (s n : Int) (hs : 1 ≤ s) :
    (forLoop (fun t => decide (t < n)) s
        (fun t => if !p t then Flow.ret false else Flow.next) (loopFuel (n - 1)) 0 = Flow.next ↔
      ∀ k : Nat, (k : Int) * s < n → p ((k : Int) * s) = true) ∧
    (forLoop (fun t => decide (t < n)) s
        (fun t => if !p t then Flow.ret false else Flow.next) (loopFuel (n - 1)) 0 = Flow.next ∨
     forLoop (fun t => decide (t < n)) s
        (fun t => if !p t then Flow.ret false else Flow.next) (loopFuel (n - 1)) 0
          = Flow.ret false) := by
  have hc : ∀ t, (fun t => decide (t < n)) t = true ↔ t ≤ n - 1 := fun t => cond_lt_iff n t
  constructor
  · rw [forLoop_next_iff hs hc _ 0 (loopFuel_enough (n - 1))]
    constructor
    · intro H k hk
      have := H k (by omega)
      rw [zero_add] at this
      cases hp : p ((k : Int) * s) with
      | true => rfl
      | false => simp [hp] at this
    · intro H k hk
      rw [zero_add] at hk ⊢
      simp [H k (by omega)]
  · apply forLoop_next_or_ret hs hc false _ _ 0 (loopFuel_enough (n - 1))
    intro t
    cases p t <;> simp

/-- The nested grid loop of the verifier. -/
theorem gridLoop_spec (p : Int → Int → Bool) (s tw th : Int) (hs : 1 ≤ s) :
    (forLoop (fun ty => decide (ty < th)) s (fun ty =>
        forLoop (fun tx => decide (tx < tw)) s
          (fun tx => if !p tx ty then Flow.ret false else Flow.next) (loopFuel (tw - 1)) 0)
        (loopFuel (th - 1)) 0 = Flow.next ↔
      ∀ i j : Nat, (i : Int) * s < tw → (j : Int) * s < th →
        p ((i : Int) * s) ((j : Int) * s) = true) ∧
    (forLoop (fun ty => decide (ty < th)) s (fun ty =>
        forLoop (fun tx => decide (tx < tw)) s
          (fun tx => if !p tx ty then Flow.ret false else Flow.next) (loopFuel (tw - 1)) 0)
        (loopFuel (th - 1)) 0 = Flow.next ∨
     forLoop (fun ty => decide (ty < th)) s (fun ty =>
        forLoop (fun tx => decide (tx < tw)) s
          (fun tx => if !p tx ty then Flow.ret false else Flow.next) (loopFuel (tw - 1)) 0)
        (loopFuel (th - 1)) 0 = Flow.ret false) := by
  have hc : ∀ t, (fun t => decide (t < th)) t = true ↔ t ≤ th - 1 := fun t => cond_lt_iff th t
  constructor
  · rw [forLoop_next_iff hs hc _ 0 (loopFuel_enough (th - 1))]
    constructor
    · intro H i j hi hj
      have := H j (by omega)
      rw [zero_add] at this
      exact ((checkLoop_spec (fun tx => p tx ((j : Int) * s)) s tw hs).1.1 this) i hi
    · intro H j hj
      rw [zero_add] at hj ⊢
      exact (checkLoop_spec (fun tx => p tx ((j : Int) * s)) s tw hs).1.2
        (fun i hi => H i j hi (by omega))
  · apply forLoop_next_or_ret hs hc false _ _ 0 (loopFuel_enough (th - 1))
    intro t
    exact (checkLoop_spec (fun tx => p tx t) s tw hs).2

theorem andThen_ret_true_iff (a b : Flow Bool)
    (ha : a = Flow.next ∨ a = Flow.ret false) (hb : b = Flow.next ∨ b = Flow.ret false) :
    (a.andThen (b.andThen (Flow.ret true)) = Flow.ret true ↔ a = Flow.next ∧ b = Flow.next) ∧
    (a.andThen (b.andThen (Flow.ret true)) = Flow.ret true ∨
      a.andThen (b.andThen (Flow.ret true)) = Flow.ret false) := by
  rcases ha with ha | ha <;> rcases hb with hb | hb <;> subst ha <;> subst hb <;>
    simp [Flow.andThen]

theorem andThen_next_iff {α : Type} (a b : Flow α) :
    a.andThen b = Flow.next ↔ a = Flow.next ∧ b = Flow.next := by
  cases a <;> simp [Flow.andThen]

theorem andThen_next_or_ret (a b : Flow Bool)
    (ha : a = Flow.next ∨ a = Flow.ret false) (hb : b = Flow.next ∨ b = Flow.ret false) :
    a.andThen b = Flow.next ∨ a.andThen b = Flow.ret false := by
  rcases ha with ha | ha <;> rcases hb with hb | hb <;> subst ha <;> subst hb <;>
    simp [Flow.andThen]

/-- What `verifyMatch` computes: it always returns, and it returns `true`
exactly when every sampled pixel matches. -/
theorem verifyMatchFlow_spec (screen target : Image) (offX offY tol step : Int) :
    (verifyMatchFlow screen target offX offY tol step = Flow.ret true ↔
      sampledMatch screen target tol step offX offY) ∧
    (verifyMatchFlow screen target offX offY tol step = Flow.ret true ∨
      verifyMatchFlow screen target offX offY tol step = Flow.ret false) := by
  have hs := one_le_max step
  have hA := gridLoop_spec (fun tx ty => matchAt screen target offX offY tol tx ty)
    (Autoptt.max 1 step) target.Bounds.Dx target.Bounds.Dy hs
  unfold verifyMatchFlow sampledMatch
  simp only [← max_eq_max]
  by_cases h1 : step > 1
  · have hs1 : 1 ≤ step := by omega
    have hB := checkLoop_spec
      (fun tx => matchAt screen target offX offY tol tx (target.Bounds.Dy - 1))
      step target.Bounds.Dx hs1
    have hC := checkLoop_spec
      (fun ty => matchAt screen target offX offY tol (target.Bounds.Dx - 1) ty)
      step target.Bounds.Dy hs1
    simp only [matchAt, ← add_sub_assoc] at hA hB hC
    simp only [matchAt, ← add_sub_assoc, if_pos h1]
    have hBC := andThen_next_or_ret _ _ hB.2 hC.2
    have hR := andThen_ret_true_iff _ _ hA.2 hBC
    refine ⟨?_, hR.2⟩
    rw [hR.1, andThen_next_iff, hA.1, hB.1, hC.1]
    constructor
    · rintro ⟨h2, h3, h4⟩
      exact ⟨h2, fun _ => ⟨h3, h4⟩⟩
    · rintro ⟨h2, h3⟩
      exact ⟨h2, (h3 (by omega)).1, (h3 (by omega)).2⟩
  · simp only [matchAt, ← add_sub_assoc] at hA
    simp only [matchAt, ← add_sub_assoc, if_neg h1]
    have hR := andThen_ret_true_iff _ Flow.next hA.2 (Or.inl rfl)
    refine ⟨?_, hR.2⟩
    rw [hR.1, hA.1]
    constructor
    · rintro ⟨h2, -⟩
      exact ⟨h2, fun h => absurd h (by omega)⟩
    · rintro ⟨h2, -⟩
      exact ⟨h2, rfl⟩

theorem verifyMatch_eq_some_true_iff (screen target : Image) (offX offY tol step : Int) :
    verifyMatch screen target offX offY tol step = some true ↔
      sampledMatch screen target tol step offX offY := by
  rw [← (verifyMatchFlow_spec screen target offX offY tol step).1]
  unfold verifyMatch
  rcases (verifyMatchFlow_spec screen target offX offY tol step).2 with h | h <;> rw [h] <;> simp

theorem verifyMatch_total (screen target : Image) (offX offY tol step : Int) :
    verifyMatch screen target offX offY tol step = some true ∨
      verifyMatch screen target offX offY tol step = some false := by
  unfold verifyMatch
  rcases (verifyMatchFlow_spec screen target offX offY tol step).2 with h | h <;> rw [h] <;> simp

theorem sampledMatch_of_fullMatch (screen target : Image) (tol step offX offY : Int)
    (hw : 1 ≤ target.Bounds.Dx) (hh : 1 ≤ target.Bounds.Dy)
    (h : fullMatch screen target tol offX offY) :
    sampledMatch screen target tol step offX offY := by
  have hs : (1 : Int) ≤ max 1 step := le_max_left 1 step
  refine ⟨fun i j hi hj => h _ _ (stride_nonneg hs i) hi (stride_nonneg hs j) hj, fun h1 => ⟨?_, ?_⟩⟩
  · intro i hi
    exact h _ _ (stride_nonneg (by omega) i) hi (by omega) (by omega)
  · intro j hj
    exact h _ _ (by omega) (by omega) (stride_nonneg (by omega) j) hj

theorem fullMatch_of_sampledMatch (screen target : Image) (tol step offX offY : Int)
    (hstep : step ≤ 1) (h : sampledMatch screen target tol step offX offY) :
    fullMatch screen target tol offX offY := by
  intro tx ty h0 h1 h2 h3
  have hm : max 1 step = 1 := by omega
  have := h.1 tx.toNat ty.toNat
  rw [hm] at this
  simp only [mul_one, Int.toNat_of_nonneg h0, Int.toNat_of_nonneg h2] at this
  exact this h1 h3

/-- C6: `almostEqualRGBA` is a total function that returns `true` exactly
when, for each of the four channels shifted right by 8 bits, the absolute
difference between the two colours is at most the tolerance. -/
theorem almostEqualRGBA_iff (c1 c2 : Color) (tol : Int) :
    almostEqualRGBA c1 c2 tol = true ↔
      |((c1.r / 256 : Nat) : Int) - ((c2.r / 256 : Nat) : Int)| ≤ tol ∧
      |((c1.g / 256 : Nat) : Int) - ((c2.g / 256 : Nat) : Int)| ≤ tol ∧
      |((c1.b / 256 : Nat) : Int) - ((c2.b / 256 : Nat) : Int)| ≤ tol ∧
      |((c1.a / 256 : Nat) : Int) - ((c2.a / 256 : Nat) : Int)| ≤ tol := by
  unfold almostEqualRGBA
  simp only [Bool.and_eq_true, decide_eq_true_iff, absInt_eq_abs, Nat.shiftRight_eq_div_pow]
  norm_num
  tauto

/-- C7: `verifyMatch` always returns, and returns `true` exactly when every
sampled target pixel matches the region pixel shifted by the offset: the grid
at multiples of `max(1, step)` and, when `step > 1`, the bottom row and the
right column at multiples of `step`; with `step <= 1` that is exactly when
every pixel of the target matches. -/
theorem verifyMatch_iff_sampled (screen target : Image) (offX offY tol step : Int) :
    (verifyMatch screen target offX offY tol step = some true ∨
      verifyMatch screen target offX offY tol step = some false) ∧
    (verifyMatch screen target offX offY tol step = some true ↔
      (∀ i j : Nat, (i : Int) * max 1 step < target.Bounds.Dx →
        (j : Int) * max 1 step < target.Bounds.Dy →
        almostEqualRGBA
          (screen.At (screen.Bounds.minX + offX + (i : Int) * max 1 step)
            (screen.Bounds.minY + offY + (j : Int) * max 1 step))
          (target.At (target.Bounds.minX + (i : Int) * max 1 step)
            (target.Bounds.minY + (j : Int) * max 1 step)) tol = true) ∧
      (1 < step →
        (∀ i : Nat, (i : Int) * step < target.Bounds.Dx →
          almostEqualRGBA
            (screen.At (screen.Bounds.minX + offX + (i : Int) * step)
              (screen.Bounds.minY + offY + (target.Bounds.Dy - 1)))
            (target.At (target.Bounds.minX + (i : Int) * step)
              (target.Bounds.minY + (target.Bounds.Dy - 1))) tol = true) ∧
        (∀ j : Nat, (j : Int) * step < target.Bounds.Dy →
          almostEqualRGBA
            (screen.At (screen.Bounds.minX + offX + (target.Bounds.Dx - 1))
              (screen.Bounds.minY + offY + (j : Int) * step))
            (target.At (target.Bounds.minX + (target.Bounds.Dx - 1))
              (target.Bounds.minY + (j : Int) * step)) tol = true))) ∧
    (step ≤ 1 →
      (verifyMatch screen target offX offY tol step = some true ↔
        ∀ tx ty : Int, 0 ≤ tx → tx < target.Bounds.Dx → 0 ≤ ty → ty < target.Bounds.Dy →
          almostEqualRGBA
            (screen.At (screen.Bounds.minX + offX + tx) (screen.Bounds.minY + offY + ty))
            (target.At (target.Bounds.minX + tx) (target.Bounds.minY + ty)) tol = true)) := by
  refine ⟨verifyMatch_total screen target offX offY tol step,
    verifyMatch_eq_some_true_iff screen target offX offY tol step, ?_⟩
  intro hstep
  rw [verifyMatch_eq_some_true_iff]
  constructor
  · exact fullMatch_of_sampledMatch screen target tol step offX offY hstep
  · intro h
    have hm : max 1 step = 1 := by omega
    refine ⟨fun i j hi hj => ?_, fun h1 => absurd h1 (by omega)⟩
    exact h _ _ (stride_nonneg (by omega) i) hi (stride_nonneg (by omega) j) hj

/-- Witness for C7: a 2 x 2 target on a 3 x 3 region with `step = 0`. -/
theorem verifyMatch_iff_sampled_witness :
    (0 : Int) ≤ 1 ∧
    (verifyMatch ⟨⟨0, 0, 3, 3⟩, fun _ _ => ⟨0, 0, 0, 65535⟩⟩
        ⟨⟨0, 0, 2, 2⟩, fun _ _ => ⟨0, 0, 0, 65535⟩⟩ 1 1 0 0 = some true ↔
      ∀ tx ty : Int, 0 ≤ tx → tx < 2 → 0 ≤ ty → ty < 2 →
        almostEqualRGBA (⟨0, 0, 0, 65535⟩ : Color) ⟨0, 0, 0, 65535⟩ 0 = true) :=
  ⟨by decide,
    (verifyMatch_iff_sampled ⟨⟨0, 0, 3, 3⟩, fun _ _ => ⟨0, 0, 0, 65535⟩⟩
      ⟨⟨0, 0, 2, 2⟩, fun _ _ => ⟨0, 0, 0, 65535⟩⟩ 1 1 0 0).2.2 (by decide)⟩

/-- Two nested scan loops with enough fuel, over a body that never runs out
of fuel: they never run out of fuel, fall through exactly when every
position falls through, and return `v` exactly at the first position, in
row-major order, whose body returns. -/
theorem scanLoops_spec {α : Type} (body : Int → Int → Flow α) (s mx my : Int) (hs : 1 ≤ s)
    (hbody : ∀ y x, body y x ≠ Flow.outOfFuel) :
    (forLoop (fun y => decide (y ≤ my)) s (fun y =>
        forLoop (fun x => decide (x ≤ mx)) s (body y) (loopFuel mx) 0) (loopFuel my) 0
      ≠ Flow.outOfFuel) ∧
    (forLoop (fun y => decide (y ≤ my)) s (fun y =>
        forLoop (fun x => decide (x ≤ mx)) s (body y) (loopFuel mx) 0) (loopFuel my) 0
      = Flow.next ↔
      ∀ k l : Nat, (k : Int) * s ≤ mx → (l : Int) * s ≤ my →
        body ((l : Int) * s) ((k : Int) * s) = Flow.next) ∧
    (∀ v, forLoop (fun y => decide (y ≤ my)) s (fun y =>
        forLoop (fun x => decide (x ≤ mx)) s (body y) (loopFuel mx) 0) (loopFuel my) 0
      = Flow.ret v ↔
      ∃ k l : Nat, (k : Int) * s ≤ mx ∧ (l : Int) * s ≤ my ∧
        body ((l : Int) * s) ((k : Int) * s) = Flow.ret v ∧
        (∀ j : Nat, j < k → body ((l : Int) * s) ((j : Int) * s) = Flow.next) ∧
        (∀ l2 : Nat, l2 < l → ∀ k2 : Nat, (k2 : Int) * s ≤ mx →
          body ((l2 : Int) * s) ((k2 : Int) * s) = Flow.next)) := by
  have hcx : ∀ t, (fun x => decide (x ≤ mx)) t = true ↔ t ≤ mx := fun t => cond_le_iff mx t
  have hcy : ∀ t, (fun y => decide (y ≤ my)) t = true ↔ t ≤ my := fun t => cond_le_iff my t
  have hrow_next : ∀ y, forLoop (fun x => decide (x ≤ mx)) s (body y) (loopFuel mx) 0
      = Flow.next ↔ ∀ k : Nat, (k : Int) * s ≤ mx → body y ((k : Int) * s) = Flow.next := by
    intro y
    rw [forLoop_next_iff hs hcx _ 0 (loopFuel_enough mx)]
    simp only [zero_add]
  have hrow_ret : ∀ y v, forLoop (fun x => decide (x ≤ mx)) s (body y) (loopFuel mx) 0
      = Flow.ret v ↔ ∃ k : Nat, (k : Int) * s ≤ mx ∧ body y ((k : Int) * s) = Flow.ret v ∧
        ∀ j : Nat, j < k → body y ((j : Int) * s) = Flow.next := by
    intro y v
    rw [forLoop_ret_iff hs hcx v _ 0 (loopFuel_enough mx)]
    simp only [zero_add]
  refine ⟨?_, ?_, ?_⟩
  · apply forLoop_ne_outOfFuel hs hcy _ _ 0 (loopFuel_enough my)
    intro y
    exact forLoop_ne_outOfFuel hs hcx (hbody y) _ 0 (loopFuel_enough mx)
  · rw [forLoop_next_iff hs hcy _ 0 (loopFuel_enough my)]
    simp only [zero_add]
    constructor
    · intro H k l hk hl
      exact (hrow_next _).1 (H l hl) k hk
    · intro H l hl
      exact (hrow_next _).2 (fun k hk => H k l hk hl)
  · intro v
    rw [forLoop_ret_iff hs hcy v _ 0 (loopFuel_enough my)]
    simp only [zero_add]
    constructor
    · rintro ⟨l, hl, hv, hlt⟩
      obtain ⟨k, hk, hkv, hklt⟩ := (hrow_ret _ v).1 hv
      exact ⟨k, l, hk, hl, hkv, hklt, fun l2 hl2 k2 hk2 => (hrow_next _).1 (hlt l2 hl2) k2 hk2⟩
    · rintro ⟨k, l, hk, hl, hkv, hklt, hrows⟩
      exact ⟨l, hl, (hrow_ret _ v).2 ⟨k, hk, hkv, hklt⟩,
        fun l2 hl2 => (hrow_next _).2 (hrows l2 hl2)⟩

theorem checkAnchors_iff (screen target : Image) (x y tol : Int) (l : List (Int × Int)) :
    checkAnchors screen target x y tol l = true ↔
      ∀ a ∈ l, matchAt screen target x y tol a.1 a.2 = true := by
  induction l with
  | nil => simp [checkAnchors]
  | cons a rest ih =>
    rw [checkAnchors]
    simp only [List.mem_cons, forall_eq_or_imp, ← ih]
    unfold matchAt
    cases almostEqualRGBA (screen.At (screen.Bounds.minX + x + a.1) (screen.Bounds.minY + y + a.2))
      (target.At (target.Bounds.minX + a.1) (target.Bounds.minY + a.2)) tol <;> simp

theorem isAccepted_iff (screen target : Image) (tol sampleStep x y : Int) :
    isAccepted screen target tol sampleStep x y ↔
      almostEqualRGBA (screen.At (screen.Bounds.minX + x) (screen.Bounds.minY + y))
        (target.At target.Bounds.minX target.Bounds.minY) tol = true ∧
      checkAnchors screen target x y tol (anchorList target.Bounds.Dx target.Bounds.Dy) = true ∧
      verifyMatch screen target x y tol sampleStep = some true := by
  rw [checkAnchors_iff]
  unfold isAccepted anchorList
  have h00 : matchAt screen target x y tol 0 0 =
      almostEqualRGBA (screen.At (screen.Bounds.minX + x) (screen.Bounds.minY + y))
        (target.At target.Bounds.minX target.Bounds.minY) tol := by
    simp [matchAt]
  rw [h00]
  by_cases h5 : target.Bounds.Dx ≥ 5 ∧ target.Bounds.Dy ≥ 5
  · have e1 : Int.tdiv target.Bounds.Dx 2 = target.Bounds.Dx / 2 :=
      Int.tdiv_eq_ediv (by omega) (by omega)
    have e2 : Int.tdiv target.Bounds.Dy 2 = target.Bounds.Dy / 2 :=
      Int.tdiv_eq_ediv (by omega) (by omega)
    simp only [if_pos h5, e1, e2]
    simp only [List.cons_append, List.nil_append, List.mem_cons, List.mem_singleton,
      forall_eq_or_imp, forall_eq, List.not_mem_nil, h00]
    constructor
    · rintro ⟨a, b, c, d, e, f⟩
      exact ⟨a, ⟨a, b, c, d, e (by omega) (by omega), by simp⟩, f⟩
    · rintro ⟨a, ⟨-, b, c, d, e, -⟩, f⟩
      exact ⟨a, b, c, d, fun _ _ => e, f⟩
  · simp only [if_neg h5]
    simp only [List.mem_cons, List.mem_singleton,
      forall_eq_or_imp, forall_eq, List.not_mem_nil, h00]
    constructor
    · rintro ⟨a, b, c, d, -, f⟩
      exact ⟨a, ⟨a, b, c, d, by simp⟩, f⟩
    · rintro ⟨a, ⟨-, b, c, d, -⟩, f⟩
      exact ⟨a, b, c, d, fun h1 h2 => absurd (And.intro h1 h2) h5, f⟩

theorem candidateBody_spec (screen target : Image) (tol sampleStep y x : Int) :
    candidateBody screen target tol sampleStep y x ≠ Flow.outOfFuel ∧
    (candidateBody screen target tol sampleStep y x = Flow.next ↔
      ¬ isAccepted screen target tol sampleStep x y) ∧
    (∀ r, candidateBody screen target tol sampleStep y x = Flow.ret r ↔
      r = (x, y, true) ∧ isAccepted screen target tol sampleStep x y) := by
  rw [isAccepted_iff]
  unfold candidateBody
  cases h0 : almostEqualRGBA (screen.At (screen.Bounds.minX + x) (screen.Bounds.minY + y))
      (target.At target.Bounds.minX target.Bounds.minY) tol
  · simp [h0]
  · cases h1 : checkAnchors screen target x y tol (anchorList target.Bounds.Dx target.Bounds.Dy)
    · simp [h0, h1]
    · rcases verifyMatch_total screen target x y tol sampleStep with h | h
      · simp only [h0, h1, h]
        simp
        intro a b
        constructor
        · rintro ⟨rfl, rfl⟩
          exact ⟨rfl, rfl⟩
        · rintro ⟨rfl, rfl⟩
          exact ⟨rfl, rfl⟩
      · simp only [h0, h1, h]
        simp

theorem stride_lt (s : Int) (hs : 1 ≤ s) (j k : Nat) (h : j < k) :
    (j : Int) * s < (k : Int) * s :=
  mul_lt_mul_of_pos_right (by exact_mod_cast h) (by omega)

theorem stride_le (s : Int) (hs : 1 ≤ s) (j k : Nat) (h : j ≤ k) :
    (j : Int) * s ≤ (k : Int) * s :=
  mul_le_mul_of_nonneg_right (by exact_mod_cast h) (by omega)

/-- What `findSubImageFast` computes on inputs that pass the guard of line
346, in terms of the scan positions `(k * s, l * s)`. -/
theorem findSubImageFast_spec (screen target : Image) (tol scanStep sampleStep : Int)
    (hnd : ¬ (target.Bounds.Dx = 0 ∨ target.Bounds.Dy = 0 ∨
      screen.Bounds.Dx < target.Bounds.Dx ∨ screen.Bounds.Dy < target.Bounds.Dy)) :
    (findSubImageFast screen target tol scanStep sampleStep = some (-1, -1, false) ∨
      ∃ x y, findSubImageFast screen target tol scanStep sampleStep = some (x, y, true)) ∧
    (findSubImageFast screen target tol scanStep sampleStep = some (-1, -1, false) ↔
      ∀ k l : Nat, (k : Int) * max 1 scanStep ≤ screen.Bounds.Dx - target.Bounds.Dx →
        (l : Int) * max 1 scanStep ≤ screen.Bounds.Dy - target.Bounds.Dy →
        ¬ isAccepted screen target tol sampleStep
          ((k : Int) * max 1 scanStep) ((l : Int) * max 1 scanStep)) ∧
    (∀ x y, findSubImageFast screen target tol scanStep sampleStep = some (x, y, true) ↔
      ∃ k l : Nat, x = (k : Int) * max 1 scanStep ∧ y = (l : Int) * max 1 scanStep ∧
        x ≤ screen.Bounds.Dx - target.Bounds.Dx ∧ y ≤ screen.Bounds.Dy - target.Bounds.Dy ∧
        isAccepted screen target tol sampleStep x y ∧
        (∀ j : Nat, j < k →
          ¬ isAccepted screen target tol sampleStep ((j : Int) * max 1 scanStep) y) ∧
        (∀ l2 : Nat, l2 < l → ∀ k2 : Nat,
          (k2 : Int) * max 1 scanStep ≤ screen.Bounds.Dx - target.Bounds.Dx →
          ¬ isAccepted screen target tol sampleStep
            ((k2 : Int) * max 1 scanStep) ((l2 : Int) * max 1 scanStep))) := by
  have hS := scanLoops_spec (candidateBody screen target tol sampleStep)
    (Autoptt.max 1 scanStep) (screen.Bounds.Dx - target.Bounds.Dx)
    (screen.Bounds.Dy - target.Bounds.Dy) (one_le_max scanStep)
    (fun y x => (candidateBody_spec screen target tol sampleStep y x).1)
  obtain ⟨hoof, hnext, hret⟩ := hS
  simp only [(fun y x => (candidateBody_spec screen target tol sampleStep y x).2.1),
    (fun y x => (candidateBody_spec screen target tol sampleStep y x).2.2)] at hnext hret
  rw [max_eq_max] at hoof hnext hret
  unfold findSubImageFast
  simp only [if_neg hnd]
  rw [max_eq_max]
  cases hO : forLoop (fun y => decide (y ≤ screen.Bounds.Dy - target.Bounds.Dy)) (max 1 scanStep)
      (fun y => forLoop (fun x => decide (x ≤ screen.Bounds.Dx - target.Bounds.Dx))
        (max 1 scanStep) (candidateBody screen target tol sampleStep y)
        (loopFuel (screen.Bounds.Dx - target.Bounds.Dx)) 0)
      (loopFuel (screen.Bounds.Dy - target.Bounds.Dy)) 0 with
  | outOfFuel => exact absurd hO hoof
  | next =>
    have hall := hnext.1 hO
    refine ⟨Or.inl rfl, ?_, ?_⟩
    · simp only [true_iff]
      exact hall
    · intro x y
      simp only [Option.some.injEq, Prod.mk.injEq, Bool.false_eq_true, and_false, false_iff]
      rintro ⟨k, l, rfl, rfl, hx, hy, hacc, -, -⟩
      exact hall k l hx hy hacc
  | ret r =>
    obtain ⟨k, l, hk, hl, ⟨hr, hacc⟩, hrow, hrows⟩ := (hret r).1 hO
    subst hr
    refine ⟨Or.inr ⟨_, _, rfl⟩, ?_, ?_⟩
    · simp only [Option.some.injEq, Prod.mk.injEq, Bool.true_eq_false, and_false, false_iff]
      intro H
      exact H k l hk hl hacc
    · intro x y
      constructor
      · intro hxy
        simp only [Option.some.injEq, Prod.mk.injEq, and_true] at hxy
        obtain ⟨rfl, rfl⟩ := hxy
        exact ⟨k, l, rfl, rfl, hk, hl, hacc, hrow, hrows⟩
      · rintro ⟨k', l', rfl, rfl, hk', hl', hacc', hrow', hrows'⟩
        have hs : (1 : Int) ≤ max 1 scanStep := le_max_left 1 scanStep
        have hll : l = l' := by
          rcases Nat.lt_trichotomy l l' with h | h | h
          · exact absurd hacc (hrows' l h k hk)
          · exact h
          · exact absurd hacc' (hrows l' h k' hk')
        subst hll
        have hkk : k = k' := by
          rcases Nat.lt_trichotomy k k' with h | h | h
          · exact absurd hacc (hrow' k h)
          · exact h
          · exact absurd hacc' (hrow k' h)
        subst hkk
        rfl

theorem almostEqualRGBA_self (c : Color) : almostEqualRGBA c c 0 = true := by
  simp [almostEqualRGBA, absInt]

theorem fullMatch_of_isCopy (region target : Image) (h : isCopy region target) :
    fullMatch region target 0 0 0 := by
  intro tx ty h0 h1 h2 h3
  unfold matchAt
  rw [add_zero, add_zero, h.2.2 tx ty h0 h1 h2 h3]
  exact almostEqualRGBA_self _

theorem isAccepted_of_fullMatch (screen target : Image) (tol sampleStep x y : Int)
    (hw : 1 ≤ target.Bounds.Dx) (hh : 1 ≤ target.Bounds.Dy)
    (h : fullMatch screen target tol x y) :
    isAccepted screen target tol sampleStep x y := by
  refine ⟨h _ _ ?_ ?_ ?_ ?_, h _ _ ?_ ?_ ?_ ?_, h _ _ ?_ ?_ ?_ ?_, h _ _ ?_ ?_ ?_ ?_,
    fun h5 h6 => h _ _ ?_ ?_ ?_ ?_, ?_⟩
  any_goals omega
  rw [verifyMatch_eq_some_true_iff]
  exact sampledMatch_of_fullMatch screen target tol sampleStep x y hw hh h

theorem fullMatch_of_isAccepted (screen target : Image) (tol sampleStep x y : Int)
    (hstep : sampleStep ≤ 1) (h : isAccepted screen target tol sampleStep x y) :
    fullMatch screen target tol x y := by
  have h1 := h.2.2.2.2.2
  rw [verifyMatch_eq_some_true_iff] at h1
  exact fullMatch_of_sampledMatch screen target tol sampleStep x y hstep h1

/-- The result of the search on a target that fits in the region, in terms
of scan positions, acceptance and raster order. -/
theorem findSubImageFast_raster (screen target : Image)
    (tol scanStep sampleStep : Int)
    (hw1 : 1 ≤ target.Bounds.Dx) (hw2 : target.Bounds.Dx ≤ screen.Bounds.Dx)
    (hh1 : 1 ≤ target.Bounds.Dy) (hh2 : target.Bounds.Dy ≤ screen.Bounds.Dy) :
    (findSubImageFast screen target tol scanStep sampleStep = some (-1, -1, false) ∨
      ∃ x y, findSubImageFast screen target tol scanStep sampleStep = some (x, y, true)) ∧
    (∀ x y, findSubImageFast screen target tol scanStep sampleStep = some (x, y, true) ↔
      isCandidate screen target scanStep x y ∧
      isAccepted screen target tol sampleStep x y ∧
      ∀ x2 y2, isCandidate screen target scanStep x2 y2 →
        isAccepted screen target tol sampleStep x2 y2 → rasterLe x y x2 y2) ∧
    (findSubImageFast screen target tol scanStep sampleStep = some (-1, -1, false) ↔
      ∀ x y, isCandidate screen target scanStep x y →
        ¬ isAccepted screen target tol sampleStep x y) := by
  have hnd : ¬ (target.Bounds.Dx = 0 ∨ target.Bounds.Dy = 0 ∨
      screen.Bounds.Dx < target.Bounds.Dx ∨ screen.Bounds.Dy < target.Bounds.Dy) := by omega
  obtain ⟨htot, hnone, hsome⟩ := findSubImageFast_spec screen target tol scanStep sampleStep hnd
  have hs : (1 : Int) ≤ max 1 scanStep := le_max_left 1 scanStep
  refine ⟨htot, ?_, ?_⟩
  · intro x y
    rw [hsome x y]
    constructor
    · rintro ⟨k, l, rfl, rfl, hx, hy, hacc, hrow, hrows⟩
      refine ⟨⟨⟨k, rfl⟩, hx, ⟨l, rfl⟩, hy⟩, hacc, ?_⟩
      rintro x2 y2 ⟨⟨k2, rfl⟩, hx2, ⟨l2, rfl⟩, hy2⟩ hacc2
      rcases Nat.lt_trichotomy l2 l with h | h | h
      · exact absurd hacc2 (hrows l2 h k2 hx2)
      · subst h
        right
        refine ⟨rfl, ?_⟩
        rcases Nat.lt_or_ge k2 k with h2 | h2
        · exact absurd hacc2 (hrow k2 h2)
        · exact stride_le _ hs k k2 h2
      · left
        exact stride_lt _ hs l l2 h
    · rintro ⟨⟨⟨k, rfl⟩, hx, ⟨l, rfl⟩, hy⟩, hacc, hmin⟩
      refine ⟨k, l, rfl, rfl, hx, hy, hacc, ?_, ?_⟩
      · intro j hj hacc2
        have hlt := stride_lt _ hs j k hj
        have := hmin _ _ ⟨⟨j, rfl⟩, by omega, ⟨l, rfl⟩, hy⟩ hacc2
        unfold rasterLe at this
        omega
      · intro l2 hl2 k2 hk2 hacc2
        have hlt := stride_lt _ hs l2 l hl2
        have := hmin _ _ ⟨⟨k2, rfl⟩, hk2, ⟨l2, rfl⟩, by omega⟩ hacc2
        unfold rasterLe at this
        omega
  · rw [hnone]
    constructor
    · rintro H x y ⟨⟨k, rfl⟩, hx, ⟨l, rfl⟩, hy⟩
      exact H k l hx hy
    · intro H k l hx hy
      exact H _ _ ⟨⟨k, rfl⟩, hx, ⟨l, rfl⟩, hy⟩

/-- C1: on a target that fits in the region, `findSubImageFast` returns
`(x, y, true)` exactly for the accepted scan position that comes first in
raster order (smallest `y`, then smallest `x`), and `(-1, -1, false)` exactly
when no scan position is accepted; it always returns one of the two. -/
theorem findSubImageFast_first_accepted (screen target : Image)
    (tol scanStep sampleStep : Int)
    (hw1 : 1 ≤ target.Bounds.Dx) (hw2 : target.Bounds.Dx ≤ screen.Bounds.Dx)
    (hh1 : 1 ≤ target.Bounds.Dy) (hh2 : target.Bounds.Dy ≤ screen.Bounds.Dy) :
    (findSubImageFast screen target tol scanStep sampleStep = some (-1, -1, false) ∨
      ∃ x y, findSubImageFast screen target tol scanStep sampleStep = some (x, y, true)) ∧
    (∀ x y, findSubImageFast screen target tol scanStep sampleStep = some (x, y, true) ↔
      isCandidate screen target scanStep x y ∧
      isAccepted screen target tol sampleStep x y ∧
      ∀ x2 y2, isCandidate screen target scanStep x2 y2 →
        isAccepted screen target tol sampleStep x2 y2 → rasterLe x y x2 y2) ∧
    (findSubImageFast screen target tol scanStep sampleStep = some (-1, -1, false) ↔
      ∀ x y, isCandidate screen target scanStep x y →
        ¬ isAccepted screen target tol sampleStep x y) :=
  findSubImageFast_raster screen target tol scanStep sampleStep hw1 hw2 hh1 hh2

/-- Witness for C1: the 3 x 3 target in the 10 x 10 region. -/
theorem findSubImageFast_first_accepted_witness :
    ((1 : Int) ≤ target3.Bounds.Dx ∧ target3.Bounds.Dx ≤ region10.Bounds.Dx ∧
      (1 : Int) ≤ target3.Bounds.Dy ∧ target3.Bounds.Dy ≤ region10.Bounds.Dy) ∧
    (findSubImageFast region10 target3 0 1 1 = some (-1, -1, false) ↔
      ∀ x y, isCandidate region10 target3 1 x y → ¬ isAccepted region10 target3 0 1 x y) :=
  ⟨by decide,
    (findSubImageFast_first_accepted region10 target3 0 1 1
      (by decide) (by decide) (by decide) (by decide)).2.2⟩

/-- C4: when the target has width 0 or height 0, or is wider or higher than
the region, `findSubImageFast` returns `(-1, -1, false)` at once, without
reading any pixel. -/
theorem findSubImageFast_degenerate (screen target : Image) (tol scanStep sampleStep : Int)
    (h : target.Bounds.Dx = 0 ∨ target.Bounds.Dy = 0 ∨
      screen.Bounds.Dx < target.Bounds.Dx ∨ screen.Bounds.Dy < target.Bounds.Dy) :
    findSubImageFast screen target tol scanStep sampleStep = some (-1, -1, false) ∧
    findSubImageFastT screen target tol scanStep sampleStep = ([], some (-1, -1, false)) := by
  unfold findSubImageFast findSubImageFastT
  simp only [if_pos h, and_self]

/-- Witness for C4: the 10 x 10 image as target of the 3 x 3 region. -/
theorem findSubImageFast_degenerate_witness :
    (region10.Bounds.Dx = 0 ∨ region10.Bounds.Dy = 0 ∨
      target3.Bounds.Dx < region10.Bounds.Dx ∨ target3.Bounds.Dy < region10.Bounds.Dy) ∧
    findSubImageFast target3 region10 22 1 2 = some (-1, -1, false) ∧
    findSubImageFastT target3 region10 22 1 2 = ([], some (-1, -1, false)) :=
  ⟨by decide, findSubImageFast_degenerate target3 region10 22 1 2 (by decide)⟩

/-- C3 fails for a target of width and height zero: the region that copies it
is searched without success. -/
theorem findSubImageFast_copy_empty :
    isCopy emptyImage emptyImage ∧
    findSubImageFast emptyImage emptyImage 0 1 1 = some (-1, -1, false) ∧
    findSubImageFast emptyImage emptyImage 0 1 1 ≠ some (0, 0, true) := by
  refine ⟨⟨rfl, rfl, fun i j _ _ _ _ => rfl⟩, by decide, by decide⟩

/-- C3 (amended): for every target of width and height at least 1 and every
region that is a copy of it, `findSubImageFast` with tolerance 0 returns
`(0, 0, true)`, for any `scanStep` and any `sampleStep`. -/
theorem findSubImageFast_copy (region target : Image) (scanStep sampleStep : Int)
    (hcopy : isCopy region target)
    (hw : 1 ≤ target.Bounds.Dx) (hh : 1 ≤ target.Bounds.Dy) :
    findSubImageFast region target 0 scanStep sampleStep = some (0, 0, true) := by
  have hnd : ¬ (target.Bounds.Dx = 0 ∨ target.Bounds.Dy = 0 ∨
      region.Bounds.Dx < target.Bounds.Dx ∨ region.Bounds.Dy < target.Bounds.Dy) := by
    have h1 := hcopy.1
    have h2 := hcopy.2.1
    omega
  rw [(findSubImageFast_spec region target 0 scanStep sampleStep hnd).2.2 0 0]
  refine ⟨0, 0, by simp, by simp, ?_, ?_, ?_, ?_, ?_⟩
  · have h1 := hcopy.1
    omega
  · have h2 := hcopy.2.1
    omega
  · exact isAccepted_of_fullMatch region target 0 sampleStep 0 0 hw hh
      (fullMatch_of_isCopy region target hcopy)
  · intro j hj
    omega
  · intro l2 hl2
    omega

/-- Witness for C3 (amended): the 3 x 3 target searched in itself. -/
theorem findSubImageFast_copy_witness :
    (isCopy target3 target3 ∧ (1 : Int) ≤ target3.Bounds.Dx ∧ (1 : Int) ≤ target3.Bounds.Dy) ∧
    findSubImageFast target3 target3 0 0 5 = some (0, 0, true) :=
  ⟨⟨⟨rfl, rfl, fun _ _ _ _ _ _ => rfl⟩, by decide, by decide⟩,
    findSubImageFast_copy target3 target3 0 5 ⟨rfl, rfl, fun _ _ _ _ _ _ => rfl⟩
      (by decide) (by decide)⟩

/-- The search returns on every input, with found or with not found. -/
theorem findSubImageFast_total (screen target : Image) (tol scanStep sampleStep : Int) :
    findSubImageFast screen target tol scanStep sampleStep = some (-1, -1, false) ∨
      ∃ x y, findSubImageFast screen target tol scanStep sampleStep = some (x, y, true) := by
  by_cases hnd : target.Bounds.Dx = 0 ∨ target.Bounds.Dy = 0 ∨
      screen.Bounds.Dx < target.Bounds.Dx ∨ screen.Bounds.Dy < target.Bounds.Dy
  · left
    unfold findSubImageFast
    simp only [if_pos hnd]
  · exact (findSubImageFast_spec screen target tol scanStep sampleStep hnd).1

/-- A found offset is an accepted one. -/
theorem isAccepted_of_found (screen target : Image) (tol scanStep sampleStep x y : Int)
    (h : findSubImageFast screen target tol scanStep sampleStep = some (x, y, true)) :
    isAccepted screen target tol sampleStep x y := by
  by_cases hnd : target.Bounds.Dx = 0 ∨ target.Bounds.Dy = 0 ∨
      screen.Bounds.Dx < target.Bounds.Dx ∨ screen.Bounds.Dy < target.Bounds.Dy
  · unfold findSubImageFast at h
    simp [if_pos hnd] at h
  · obtain ⟨k, l, -, -, -, -, hacc, -, -⟩ :=
      ((findSubImageFast_spec screen target tol scanStep sampleStep hnd).2.2 x y).1 h
    exact hacc

theorem mkImage_At_out (b : Rectangle) (px : Int → Int → Color) (x y : Int)
    (h : ¬ (b.minX ≤ x ∧ x < b.maxX ∧ b.minY ≤ y ∧ y < b.maxY)) :
    (mkImage b px).At x y = ⟨0, 0, 0, 0⟩ :=
  if_neg h

theorem mkImage_At_in (b : Rectangle) (px : Int → Int → Color) (x y : Int)
    (h : b.minX ≤ x ∧ x < b.maxX ∧ b.minY ≤ y ∧ y < b.maxY) :
    (mkImage b px).At x y = px x y :=
  if_pos h

/-- A pixel of the 3 x 3 target placed outside the 3 x 3 region does not
match. -/
theorem region3hole_out (x y tx ty : Int) (h0 : 0 ≤ tx) (h1 : tx < 3) (h2 : 0 ≤ ty)
    (h3 : ty < 3) (hout : x + tx < 0 ∨ 3 ≤ x + tx ∨ y + ty < 0 ∨ 3 ≤ y + ty) :
    matchAt region3hole target3 x y 0 tx ty = false := by
  have e1 : region3hole.At (region3hole.Bounds.minX + x + tx)
      (region3hole.Bounds.minY + y + ty) = ⟨0, 0, 0, 0⟩ := by
    apply mkImage_At_out
    show ¬ ((0 : Int) ≤ 0 + x + tx ∧ 0 + x + tx < 3 ∧ (0 : Int) ≤ 0 + y + ty ∧ 0 + y + ty < 3)
    omega
  have e2 : target3.At (target3.Bounds.minX + tx) (target3.Bounds.minY + ty) = colorB := by
    apply mkImage_At_in
    show (0 : Int) ≤ 0 + tx ∧ 0 + tx < 3 ∧ (0 : Int) ≤ 0 + ty ∧ 0 + ty < 3
    omega
  unfold matchAt
  rw [e1, e2]
  decide

/-- C2 fails for `sampleStep = 2`: in the 3 x 3 region whose centre differs
from the target no offset matches on every pixel, yet the search reports the
offset `(0, 0)`, because the centre pixel is not sampled. -/
theorem findSubImageFast_unsampled_pixel :
    (∀ x y : Int, ¬ fullMatch region3hole target3 0 x y) ∧
    findSubImageFast region3hole target3 0 1 2 = some (0, 0, true) := by
  refine ⟨?_, by decide⟩
  intro x y h
  have hdx : target3.Bounds.Dx = 3 := rfl
  have hdy : target3.Bounds.Dy = 3 := rfl
  by_cases hx : x = 0
  · by_cases hy : y = 0
    · subst hx
      subst hy
      exact absurd (h 1 1 (by decide) (by decide) (by decide) (by decide)) (by decide)
    · have h00 := h 0 0 (by decide) (by decide) (by decide) (by decide)
      have h02 := h 0 2 (by decide) (by decide) (by decide) (by decide)
      rcases lt_or_gt_of_ne hy with hlt | hgt
      · rw [region3hole_out x y 0 0 (by decide) (by decide) (by decide) (by decide)
          (by omega)] at h00
        cases h00
      · rw [region3hole_out x y 0 2 (by decide) (by decide) (by decide) (by decide)
          (by omega)] at h02
        cases h02
  · have h00 := h 0 0 (by decide) (by decide) (by decide) (by decide)
    have h20 := h 2 0 (by decide) (by decide) (by decide) (by decide)
    rcases lt_or_gt_of_ne hx with hlt | hgt
    · rw [region3hole_out x y 0 0 (by decide) (by decide) (by decide) (by decide)
        (by omega)] at h00
      cases h00
    · rw [region3hole_out x y 2 0 (by decide) (by decide) (by decide) (by decide)
        (by omega)] at h20
      cases h20

/-- C2 (amended): `findSubImageFast` returns on every input, for every
`scanStep` and `sampleStep`; it returns not found when at no offset every
pixel sampled by `verifyMatch` at stride `sampleStep` matches, and, for
`sampleStep <= 1`, when at no offset every pixel of the target matches. -/
theorem findSubImageFast_no_match (screen target : Image) (tol scanStep sampleStep : Int) :
    (findSubImageFast screen target tol scanStep sampleStep = some (-1, -1, false) ∨
      ∃ x y, findSubImageFast screen target tol scanStep sampleStep = some (x, y, true)) ∧
    ((∀ x y : Int, ¬ sampledMatch screen target tol sampleStep x y) →
      findSubImageFast screen target tol scanStep sampleStep = some (-1, -1, false)) ∧
    (sampleStep ≤ 1 → (∀ x y : Int, ¬ fullMatch screen target tol x y) →
      findSubImageFast screen target tol scanStep sampleStep = some (-1, -1, false)) := by
  have htot := findSubImageFast_total screen target tol scanStep sampleStep
  refine ⟨htot, ?_, ?_⟩
  · intro H
    rcases htot with h | ⟨x, y, h⟩
    · exact h
    · have hacc := isAccepted_of_found screen target tol scanStep sampleStep x y h
      exact absurd ((verifyMatch_eq_some_true_iff _ _ _ _ _ _).1 hacc.2.2.2.2.2) (H x y)
  · intro hstep H
    rcases htot with h | ⟨x, y, h⟩
    · exact h
    · have hacc := isAccepted_of_found screen target tol scanStep sampleStep x y h
      exact absurd (fullMatch_of_isAccepted screen target tol sampleStep x y hstep hacc) (H x y)

theorem region1_no_fullMatch (x y : Int) : ¬ fullMatch region1 target1 0 x y := by
  intro h
  have h00 := h 0 0 (by decide) (by decide) (by decide) (by decide)
  have e2 : target1.At (target1.Bounds.minX + 0) (target1.Bounds.minY + 0) = colorB := rfl
  unfold matchAt at h00
  rw [e2] at h00
  by_cases hin : (0 : Int) ≤ 0 + x + 0 ∧ 0 + x + 0 < 1 ∧ (0 : Int) ≤ 0 + y + 0 ∧ 0 + y + 0 < 1
  · have e1 : region1.At (region1.Bounds.minX + x + 0) (region1.Bounds.minY + y + 0)
        = colorA := mkImage_At_in _ _ _ _ hin
    rw [e1] at h00
    exact absurd h00 (by decide)
  · have e1 : region1.At (region1.Bounds.minX + x + 0) (region1.Bounds.minY + y + 0)
        = ⟨0, 0, 0, 0⟩ := mkImage_At_out _ _ _ _ hin
    rw [e1] at h00
    exact absurd h00 (by decide)

/-- Witness for C2 (amended): the 1 x 1 target of colour B in the 1 x 1
region of colour A, with `sampleStep = 0`. -/
theorem findSubImageFast_no_match_witness :
    ((0 : Int) ≤ 1 ∧ ∀ x y : Int, ¬ fullMatch region1 target1 0 x y) ∧
    findSubImageFast region1 target1 0 3 0 = some (-1, -1, false) :=
  ⟨⟨by decide, region1_no_fullMatch⟩,
    (findSubImageFast_no_match region1 target1 0 3 0).2.2 (by decide) region1_no_fullMatch⟩

theorem verifyMatch_of_le_one (screen target : Image) (offX offY tol step : Int)
    (h : step ≤ 1) :
    verifyMatch screen target offX offY tol step = verifyMatch screen target offX offY tol 1 := by
  unfold verifyMatch verifyMatchFlow
  rw [max_of_le_one step h, max_of_le_one 1 le_rfl]
  simp only [if_neg (show ¬ step > 1 by omega), if_neg (show ¬ (1 : Int) > 1 by decide)]

theorem findSubImageFast_of_le_one (screen target : Image) (tol scanStep sampleStep : Int)
    (h1 : scanStep ≤ 1) (h2 : sampleStep ≤ 1) :
    findSubImageFast screen target tol scanStep sampleStep =
      findSubImageFast screen target tol 1 1 := by
  have hb : candidateBody screen target tol sampleStep = candidateBody screen target tol 1 := by
    funext y x
    unfold candidateBody
    rw [verifyMatch_of_le_one screen target x y tol sampleStep h2]
  unfold findSubImageFast
  rw [max_of_le_one scanStep h1, max_of_le_one 1 le_rfl, hb]

/-- C5: strides of at most 1 (zero and negative values included) behave like
stride 1: the search returns, with the same result as for `scanStep = 1` and
`sampleStep = 1`, and on a target that fits in the region that result is the
first offset in raster order, among all offsets of
`[0, sw-tw] x [0, sh-th]`, at which every pixel of the target matches, or not
found when there is no such offset. -/
theorem findSubImageFast_nonpositive_strides (screen target : Image)
    (tol scanStep sampleStep : Int) (h1 : scanStep ≤ 1) (h2 : sampleStep ≤ 1) :
    findSubImageFast screen target tol scanStep sampleStep =
      findSubImageFast screen target tol 1 1 ∧
    (findSubImageFast screen target tol scanStep sampleStep = some (-1, -1, false) ∨
      ∃ x y, findSubImageFast screen target tol scanStep sampleStep = some (x, y, true)) ∧
    (1 ≤ target.Bounds.Dx → target.Bounds.Dx ≤ screen.Bounds.Dx →
      1 ≤ target.Bounds.Dy → target.Bounds.Dy ≤ screen.Bounds.Dy →
      (∀ x y, findSubImageFast screen target tol scanStep sampleStep = some (x, y, true) ↔
        (0 ≤ x ∧ x ≤ screen.Bounds.Dx - target.Bounds.Dx ∧
          0 ≤ y ∧ y ≤ screen.Bounds.Dy - target.Bounds.Dy) ∧
        fullMatch screen target tol x y ∧
        ∀ x2 y2, 0 ≤ x2 → x2 ≤ screen.Bounds.Dx - target.Bounds.Dx →
          0 ≤ y2 → y2 ≤ screen.Bounds.Dy - target.Bounds.Dy →
          fullMatch screen target tol x2 y2 → rasterLe x y x2 y2) ∧
      (findSubImageFast screen target tol scanStep sampleStep = some (-1, -1, false) ↔
        ∀ x y, 0 ≤ x → x ≤ screen.Bounds.Dx - target.Bounds.Dx →
          0 ≤ y → y ≤ screen.Bounds.Dy - target.Bounds.Dy →
          ¬ fullMatch screen target tol x y)) := by
  refine ⟨findSubImageFast_of_le_one screen target tol scanStep sampleStep h1 h2,
    findSubImageFast_total screen target tol scanStep sampleStep, ?_⟩
  intro hw1 hw2 hh1 hh2
  obtain ⟨-, hsome, hnone⟩ :=
    findSubImageFast_raster screen target tol scanStep sampleStep hw1 hw2 hh1 hh2
  have hm : max 1 scanStep = 1 := by omega
  have hcand : ∀ x y, isCandidate screen target scanStep x y ↔
      (0 ≤ x ∧ x ≤ screen.Bounds.Dx - target.Bounds.Dx ∧
        0 ≤ y ∧ y ≤ screen.Bounds.Dy - target.Bounds.Dy) := by
    intro x y
    unfold isCandidate
    rw [hm]
    constructor
    · rintro ⟨⟨k, rfl⟩, hx, ⟨l, rfl⟩, hy⟩
      exact ⟨by omega, hx, by omega, hy⟩
    · rintro ⟨hx0, hx, hy0, hy⟩
      exact ⟨⟨x.toNat, by omega⟩, hx, ⟨y.toNat, by omega⟩, hy⟩
  have hacc : ∀ x y, isAccepted screen target tol sampleStep x y ↔
      fullMatch screen target tol x y := fun x y =>
    ⟨fullMatch_of_isAccepted screen target tol sampleStep x y h2,
      isAccepted_of_fullMatch screen target tol sampleStep x y hw1 hh1⟩
  constructor
  · intro x y
    rw [hsome x y, hcand x y, hacc x y]
    constructor
    · rintro ⟨hc, hf, hmin⟩
      exact ⟨hc, hf, fun x2 y2 a b c d e =>
        hmin x2 y2 ((hcand x2 y2).2 ⟨a, b, c, d⟩) ((hacc x2 y2).2 e)⟩
    · rintro ⟨hc, hf, hmin⟩
      refine ⟨hc, hf, fun x2 y2 hc2 ha2 => ?_⟩
      obtain ⟨a, b, c, d⟩ := (hcand x2 y2).1 hc2
      exact hmin x2 y2 a b c d ((hacc x2 y2).1 ha2)
  · rw [hnone]
    constructor
    · intro H x y a b c d hf
      exact H x y ((hcand x y).2 ⟨a, b, c, d⟩) ((hacc x y).2 hf)
    · intro H x y hc ha
      obtain ⟨a, b, c, d⟩ := (hcand x y).1 hc
      exact H x y a b c d ((hacc x y).1 ha)

/-- Witness for C5: `scanStep = 0` and `sampleStep = -3` on the 10 x 10
region. -/
theorem findSubImageFast_nonpositive_strides_witness :
    ((0 : Int) ≤ 1 ∧ (-3 : Int) ≤ 1) ∧
    findSubImageFast region10 target3 0 0 (-3) = findSubImageFast region10 target3 0 1 1 :=
  ⟨by decide, (findSubImageFast_nonpositive_strides region10 target3 0 0 (-3)
    (by decide) (by decide)).1⟩

theorem foundIn_eq_false_iff (img : Image) (t : tgt) :
    foundIn img t = false ↔
      findSubImageFast img t.img TOLERANCE SCAN_STEP SAMPLE_STEP = some (-1, -1, false) := by
  unfold foundIn
  rcases findSubImageFast_total img t.img TOLERANCE SCAN_STEP SAMPLE_STEP with h | ⟨x, y, h⟩ <;>
    rw [h] <;> simp

theorem foundIn_eq_true_iff (img : Image) (t : tgt) :
    foundIn img t = true ↔
      ∃ x y, findSubImageFast img t.img TOLERANCE SCAN_STEP SAMPLE_STEP = some (x, y, true) := by
  unfold foundIn
  rcases findSubImageFast_total img t.img TOLERANCE SCAN_STEP SAMPLE_STEP with h | ⟨x, y, h⟩ <;>
    rw [h] <;> simp

theorem autohsTargets_none_found (img : Image) (ts : List tgt)
    (h : ∀ t ∈ ts, foundIn img t = false) : autohsTargets img false ts = some [] := by
  induction ts with
  | nil => rfl
  | cons t rest ih =>
    have ht := (foundIn_eq_false_iff img t).1 (h t (List.mem_cons_self t rest))
    rw [autohsTargets, ht]
    simp only [Bool.not_false, Bool.true_or, if_true]
    exact ih (fun u hu => h u (List.mem_cons_of_mem t hu))

theorem autohsTargets_first_found (img : Image) (pre : List tgt) (t : tgt) (post : List tgt)
    (rx ry : Int) (hpre : ∀ u ∈ pre, foundIn img u = false)
    (ht : findSubImageFast img t.img TOLERANCE SCAN_STEP SAMPLE_STEP = some (rx, ry, true)) :
    autohsTargets img false (pre ++ t :: post) =
      some [Event.click (REGION_X + rx + Int.tdiv t.w 2) (REGION_Y + ry + Int.tdiv t.h 2)] := by
  induction pre with
  | nil =>
    rw [List.nil_append, autohsTargets, ht]
    simp
  | cons u rest ih =>
    have hu := (foundIn_eq_false_iff img u).1 (hpre u (List.mem_cons_self u rest))
    rw [List.cons_append, autohsTargets, hu]
    simp only [Bool.not_false, Bool.true_or, if_true]
    exact ih (fun v hv => hpre v (List.mem_cons_of_mem u hv))

theorem first_found_split (img : Image) (ts : List tgt) :
    (∀ t ∈ ts, foundIn img t = false) ∨
    ∃ pre t post rx ry, ts = pre ++ t :: post ∧ (∀ u ∈ pre, foundIn img u = false) ∧
      findSubImageFast img t.img TOLERANCE SCAN_STEP SAMPLE_STEP = some (rx, ry, true) := by
  induction ts with
  | nil => left; intro t ht; cases ht
  | cons t rest ih =>
    cases hf : foundIn img t with
    | true =>
      obtain ⟨x, y, hxy⟩ := (foundIn_eq_true_iff img t).1 hf
      exact Or.inr ⟨[], t, rest, x, y, rfl, fun u hu => (by cases hu), hxy⟩
    | false =>
      rcases ih with h | ⟨pre, u, post, rx, ry, hsplit, hpre, hu⟩
      · left
        intro v hv
        rcases List.mem_cons.1 hv with rfl | hv
        · exact hf
        · exact h v hv
      · right
        refine ⟨t :: pre, u, post, rx, ry, by rw [hsplit]; rfl, ?_, hu⟩
        intro v hv
        rcases List.mem_cons.1 hv with rfl | hv
        · exact hf
        · exact hpre v hv

/-- C9: one cycle of the `autohs` loop on a snapshot issues at most one click:
none when no target is found, and otherwise exactly one, for the first
target of the list that `findSubImageFast` finds in the snapshot, whatever
the later targets would give. -/
theorem autohsCycle_first_target_wins (img : Image) (targets : List tgt) :
    (∃ evs, autohsCycle img targets = some evs ∧ (clicksOf evs).length ≤ 1) ∧
    ((∀ t ∈ targets, foundIn img t = false) →
      autohsCycle img targets = some [Event.capture, Event.sleep INTERVAL_SEC]) ∧
    (∀ pre t post rx ry, targets = pre ++ t :: post →
      (∀ u ∈ pre, foundIn img u = false) →
      findSubImageFast img t.img TOLERANCE SCAN_STEP SAMPLE_STEP = some (rx, ry, true) →
      autohsCycle img targets = some [Event.capture,
        Event.click (REGION_X + rx + Int.tdiv t.w 2) (REGION_Y + ry + Int.tdiv t.h 2),
        Event.sleep INTERVAL_SEC]) := by
  have hnone : (∀ t ∈ targets, foundIn img t = false) →
      autohsCycle img targets = some [Event.capture, Event.sleep INTERVAL_SEC] := by
    intro h
    unfold autohsCycle
    rw [autohsTargets_none_found img targets h]
    rfl
  have hsome : ∀ pre t post rx ry, targets = pre ++ t :: post →
      (∀ u ∈ pre, foundIn img u = false) →
      findSubImageFast img t.img TOLERANCE SCAN_STEP SAMPLE_STEP = some (rx, ry, true) →
      autohsCycle img targets = some [Event.capture,
        Event.click (REGION_X + rx + Int.tdiv t.w 2) (REGION_Y + ry + Int.tdiv t.h 2),
        Event.sleep INTERVAL_SEC] := by
    intro pre t post rx ry hsplit hpre ht
    unfold autohsCycle
    rw [hsplit, autohsTargets_first_found img pre t post rx ry hpre ht]
    rfl
  refine ⟨?_, hnone, hsome⟩
  rcases first_found_split img targets with h | ⟨pre, t, post, rx, ry, hsplit, hpre, ht⟩
  · exact ⟨_, hnone h, by simp [clicksOf]⟩
  · exact ⟨_, hsome pre t post rx ry hsplit hpre ht, by simp [clicksOf]⟩

/-- Witness for C9: the grey target is not found in the 10 x 10 region, the
3 x 3 target after it is found at `(4, 4)` and clicked at `(5, 5)`, and the
1 x 1 target of colour B after it, which would be found too, is not acted
on. -/
theorem autohsCycle_first_target_wins_witness :
    foundIn region10 tgt1 = true ∧
    autohsCycle region10 [tgtGrey, tgt3, tgt1] =
      some [Event.capture, Event.click 5 5, Event.sleep INTERVAL_SEC] :=
  ⟨by decide,
    (autohsCycle_first_target_wins region10 [tgtGrey, tgt3, tgt1]).2.2 [tgtGrey] tgt3 [tgt1] 4 4
      rfl (by intro u hu; rw [List.mem_singleton.1 hu]; decide) (by decide)⟩

theorem autopttTargets_counts (cap : Nat → Image) (ts : List tgt) :
    ∀ k : Nat, ∃ evs, autopttTargets cap k ts = some evs ∧
      (capturesOf evs).length = ts.length ∧
      (clicksOf evs).length = matchedCount cap k ts ∧
      (shortDelaysOf evs).length = matchedCount cap k ts ∧
      (intervalSleepsOf evs).length = 0 := by
  induction ts with
  | nil =>
    intro k
    exact ⟨[], rfl, rfl, rfl, rfl, rfl⟩
  | cons t rest ih =>
    intro k
    obtain ⟨evs, hevs, h1, h2, h3, h4⟩ := ih (k + 1)
    have h4nil : intervalSleepsOf evs = [] := List.length_eq_zero.1 h4
    rcases findSubImageFast_total (cap k) t.img TOLERANCE SCAN_STEP SAMPLE_STEP with
      h | ⟨x, y, h⟩
    · have hf : foundIn (cap k) t = false := (foundIn_eq_false_iff _ _).2 h
      refine ⟨Event.capture :: evs, ?_, ?_, ?_, ?_, ?_⟩
      · rw [autopttTargets, h, hevs]
        rfl
      · simp [capturesOf, List.filter] at h1 ⊢
        exact h1
      · simp [clicksOf, List.filter, matchedCount, hf] at h2 ⊢
        exact h2
      · simp [shortDelaysOf, List.filter, matchedCount, hf] at h3 ⊢
        exact h3
      · simp [intervalSleepsOf, List.filter] at h4nil ⊢
        exact h4nil
    · have hf : foundIn (cap k) t = true := (foundIn_eq_true_iff _ _).2 ⟨x, y, h⟩
      refine ⟨Event.capture ::
        Event.click (REGION_X + x + Int.tdiv t.w 2) (REGION_Y + y + Int.tdiv t.h 2) ::
        Event.sleep 2 :: evs, ?_, ?_, ?_, ?_, ?_⟩
      · rw [autopttTargets, h, hevs]
        rfl
      · simp [capturesOf, List.filter] at h1 ⊢
        exact h1
      · simp [clicksOf, List.filter, matchedCount, hf] at h2 ⊢
        omega
      · simp [shortDelaysOf, List.filter, matchedCount, hf] at h3 ⊢
        omega
      · simp [intervalSleepsOf, List.filter, INTERVAL_SEC] at h4nil ⊢
        exact h4nil

/-- C8 fails on a cycle with one target that is not found: the cycle is one
capture followed by the full-interval sleep, with no short delay. -/
theorem autopttCycle_unmatched_no_delay :
    autopttCycle (fun _ => region1) [tgt1] = some [Event.capture, Event.sleep INTERVAL_SEC] ∧
    (shortDelaysOf [Event.capture, Event.sleep INTERVAL_SEC]).length ≠ [tgt1].length := by
  refine ⟨by decide, by decide⟩

/-- C8 (amended): a cycle of the `autoptt` loop over `n` targets, every
capture succeeding, consists of exactly `n` captures, one click and one
2-second delay for each target that is found and none for the others, and
ends with the one full-interval sleep. -/
theorem autopttCycle_events (cap : Nat → Image) (targets : List tgt) :
    ∃ evs, autopttCycle cap targets = some (evs ++ [Event.sleep INTERVAL_SEC]) ∧
      (capturesOf (evs ++ [Event.sleep INTERVAL_SEC])).length = targets.length ∧
      (clicksOf (evs ++ [Event.sleep INTERVAL_SEC])).length = matchedCount cap 0 targets ∧
      (shortDelaysOf (evs ++ [Event.sleep INTERVAL_SEC])).length = matchedCount cap 0 targets ∧
      (intervalSleepsOf (evs ++ [Event.sleep INTERVAL_SEC])).length = 1 := by
  obtain ⟨evs, hevs, h1, h2, h3, h4⟩ := autopttTargets_counts cap targets 0
  refine ⟨evs, ?_, ?_, ?_, ?_, ?_⟩
  · unfold autopttCycle
    rw [hevs]
  · unfold capturesOf at h1 ⊢
    rw [List.filter_append, List.length_append, h1]
    rfl
  · unfold clicksOf at h2 ⊢
    rw [List.filter_append, List.length_append, h2]
    rfl
  · unfold shortDelaysOf at h3 ⊢
    rw [List.filter_append, List.length_append, h3]
    rfl
  · unfold intervalSleepsOf at h4 ⊢
    rw [List.filter_append, List.length_append, h4]
    rfl

section Traced

variable {α : Type} {cond : Int → Bool} {s : Int} {body : Int → List Read × Flow α}

/-- Forgetting the reads of an instrumented loop gives the loop. -/
theorem forLoopT_snd : ∀ (fuel : Nat) (i : Int),
    (forLoopT cond s body fuel i).2 = forLoop cond s (fun j => (body j).2) fuel i := by
  intro fuel
  induction fuel with
  | zero => intro i; rfl
  | succ fuel ih =>
    intro i
    rw [forLoopT, forLoop]
    by_cases hc : cond i = true
    · rw [if_pos hc, if_pos hc]
      rcases hb : body i with ⟨t, v | _ | _⟩
      · rfl
      · exact ih (i + s)
      · rfl
    · rw [if_neg hc, if_neg hc]

/-- Every read of an instrumented loop is a read of one of its iterations, at
an index that is not below the start and satisfies the loop condition. -/
theorem forLoopT_reads (hs : 0 ≤ s) (P : Read → Prop) (lo : Int)
    (hP : ∀ j, lo ≤ j → cond j = true → ∀ r ∈ (body j).1, P r) :
    ∀ (fuel : Nat) (i : Int), lo ≤ i → ∀ r ∈ (forLoopT cond s body fuel i).1, P r := by
  intro fuel
  induction fuel with
  | zero =>
    intro i _ r hr
    simp [forLoopT] at hr
  | succ fuel ih =>
    intro i hi r hr
    rw [forLoopT] at hr
    by_cases hc : cond i = true
    · rw [if_pos hc] at hr
      have hbody := hP i hi hc
      rcases hb : body i with ⟨t, v | _ | _⟩
      · rw [hb] at hr hbody
        exact hbody r hr
      · rw [hb] at hr hbody
        rcases List.mem_append.1 hr with h | h
        · exact hbody r h
        · exact ih (i + s) (by omega) r h
      · rw [hb] at hr hbody
        exact hbody r hr
    · rw [if_neg hc] at hr
      simp at hr

end Traced

theorem andThenT_snd {α : Type} (a b : List Read × Flow α) :
    (andThenT a b).2 = a.2.andThen b.2 := by
  rcases a with ⟨t, v | _ | _⟩ <;> rfl

theorem andThenT_reads {α : Type} (a b : List Read × Flow α) (P : Read → Prop)
    (ha : ∀ r ∈ a.1, P r) (hb : ∀ r ∈ b.1, P r) : ∀ r ∈ (andThenT a b).1, P r := by
  rcases a with ⟨t, v | _ | _⟩
  · exact ha
  · intro r hr
    rcases List.mem_append.1 hr with h | h
    · exact ha r h
    · exact hb r h
  · exact ha

theorem verifyMatchFlowT_snd (screen target : Image) (offX offY tol step : Int) :
    (verifyMatchFlowT screen target offX offY tol step).2 =
      verifyMatchFlow screen target offX offY tol step := by
  unfold verifyMatchFlowT verifyMatchFlow
  by_cases h : step > 1
  · simp only [andThenT_snd, forLoopT_snd, if_pos h, checkT, comparePixels]
  · simp only [andThenT_snd, forLoopT_snd, if_neg h, checkT, comparePixels]

theorem verifyMatchT_snd (screen target : Image) (offX offY tol step : Int) :
    (verifyMatchT screen target offX offY tol step).2 =
      verifyMatch screen target offX offY tol step := by
  unfold verifyMatchT verifyMatch
  rw [← verifyMatchFlowT_snd]
  rcases verifyMatchFlowT screen target offX offY tol step with ⟨t, v | _ | _⟩ <;> rfl

theorem verifyMatchT_fst (screen target : Image) (offX offY tol step : Int) :
    (verifyMatchT screen target offX offY tol step).1 =
      (verifyMatchFlowT screen target offX offY tol step).1 := by
  unfold verifyMatchT
  rcases verifyMatchFlowT screen target offX offY tol step with ⟨t, v | _ | _⟩ <;> rfl

theorem comparePixels_reads (screen target : Image) (offX offY tol tx ty : Int) (X Y U V : Int)
    (hX : X = screen.Bounds.minX + offX + tx) (hY : Y = screen.Bounds.minY + offY + ty)
    (hU : U = target.Bounds.minX + tx) (hV : V = target.Bounds.minY + ty)
    (h0 : 0 ≤ tx) (h1 : tx < target.Bounds.Dx) (h2 : 0 ≤ ty) (h3 : ty < target.Bounds.Dy) :
    ∀ r ∈ (comparePixels screen target X Y U V tol).1, isPixelRead screen target offX offY r := by
  intro r hr
  subst hX hY hU hV
  simp only [comparePixels, List.mem_cons, List.mem_singleton, List.not_mem_nil, or_false] at hr
  rcases hr with rfl | rfl
  · exact ⟨tx, ty, h0, h1, h2, h3, Or.inl rfl⟩
  · exact ⟨tx, ty, h0, h1, h2, h3, Or.inr rfl⟩

theorem verifyMatchFlowT_reads (screen target : Image) (offX offY tol step : Int)
    (hw : 1 ≤ target.Bounds.Dx) (hh : 1 ≤ target.Bounds.Dy) :
    ∀ r ∈ (verifyMatchFlowT screen target offX offY tol step).1,
      isPixelRead screen target offX offY r := by
  have hs : 0 ≤ Autoptt.max 1 step := by
    have := one_le_max step
    omega
  unfold verifyMatchFlowT
  apply andThenT_reads
  · refine forLoopT_reads hs (fun r => isPixelRead screen target offX offY r) 0 ?_ _ 0 le_rfl
    intro ty hty0 hty
    refine forLoopT_reads hs (fun r => isPixelRead screen target offX offY r) 0 ?_ _ 0 le_rfl
    intro tx htx0 htx
    simp only [decide_eq_true_iff] at hty htx
    exact comparePixels_reads screen target offX offY tol tx ty _ _ _ _ rfl rfl rfl rfl
      htx0 htx hty0 hty
  · apply andThenT_reads
    · by_cases h : step > 1
      · have hs1 : 0 ≤ step := by omega
        rw [if_pos h]
        apply andThenT_reads
        · refine forLoopT_reads hs1 (fun r => isPixelRead screen target offX offY r) 0 ?_ _ 0
            le_rfl
          intro tx htx0 htx
          simp only [decide_eq_true_iff] at htx
          exact comparePixels_reads screen target offX offY tol tx (target.Bounds.Dy - 1)
            _ _ _ _ rfl (by omega) rfl (by omega) htx0 htx (by omega) (by omega)
        · refine forLoopT_reads hs1 (fun r => isPixelRead screen target offX offY r) 0 ?_ _ 0
            le_rfl
          intro ty hty0 hty
          simp only [decide_eq_true_iff] at hty
          exact comparePixels_reads screen target offX offY tol (target.Bounds.Dx - 1) ty
            _ _ _ _ (by omega) rfl (by omega) rfl (by omega) (by omega) hty0 hty
      · rw [if_neg h]
        intro r hr
        simp at hr
    · intro r hr
      simp at hr

theorem checkAnchorsT_snd (screen target : Image) (x y tol : Int) (l : List (Int × Int)) :
    (checkAnchorsT screen target x y tol l).2 = checkAnchors screen target x y tol l := by
  induction l with
  | nil => rfl
  | cons a rest ih =>
    rw [checkAnchorsT, checkAnchors]
    simp only [comparePixels]
    cases almostEqualRGBA
      (screen.At (screen.Bounds.minX + x + a.1) (screen.Bounds.minY + y + a.2))
      (target.At (target.Bounds.minX + a.1) (target.Bounds.minY + a.2)) tol
    · rfl
    · exact ih

theorem checkAnchorsT_reads (screen target : Image) (x y tol : Int) (l : List (Int × Int))
    (hl : ∀ a ∈ l, 0 ≤ a.1 ∧ a.1 < target.Bounds.Dx ∧ 0 ≤ a.2 ∧ a.2 < target.Bounds.Dy) :
    ∀ r ∈ (checkAnchorsT screen target x y tol l).1, isPixelRead screen target x y r := by
  induction l with
  | nil =>
    intro r hr
    simp [checkAnchorsT] at hr
  | cons a rest ih =>
    have ha := hl a (List.mem_cons_self a rest)
    have hcmp := comparePixels_reads screen target x y tol a.1 a.2 _ _ _ _ rfl rfl rfl rfl
      ha.1 ha.2.1 ha.2.2.1 ha.2.2.2
    intro r hr
    rw [checkAnchorsT] at hr
    rcases hc : comparePixels screen target
        (screen.Bounds.minX + x + a.1) (screen.Bounds.minY + y + a.2)
        (target.Bounds.minX + a.1) (target.Bounds.minY + a.2) tol with ⟨t, _ | _⟩
    · rw [hc] at hr hcmp
      exact hcmp r hr
    · rw [hc] at hr hcmp
      rcases List.mem_append.1 hr with h | h
      · exact hcmp r h
      · exact ih (fun b hb => hl b (List.mem_cons_of_mem a hb)) r h

theorem anchorList_inside (tw th : Int) (hw : 1 ≤ tw) (hh : 1 ≤ th) :
    ∀ a ∈ anchorList tw th, 0 ≤ a.1 ∧ a.1 < tw ∧ 0 ≤ a.2 ∧ a.2 < th := by
  intro a ha
  unfold anchorList at ha
  by_cases h5 : tw ≥ 5 ∧ th ≥ 5
  · have e1 : Int.tdiv tw 2 = tw / 2 := Int.tdiv_eq_ediv (by omega) (by omega)
    have e2 : Int.tdiv th 2 = th / 2 := Int.tdiv_eq_ediv (by omega) (by omega)
    simp only [if_pos h5, e1, e2, List.cons_append, List.nil_append, List.mem_cons,
      List.mem_singleton, List.not_mem_nil, or_false] at ha
    rcases ha with rfl | rfl | rfl | rfl | rfl <;> simp only <;> omega
  · simp only [if_neg h5, List.mem_cons, List.mem_singleton, List.not_mem_nil, or_false] at ha
    rcases ha with rfl | rfl | rfl | rfl <;> simp only <;> omega

theorem candidateBodyT_snd (screen target : Image) (tol sampleStep y x : Int) :
    (candidateBodyT screen target tol sampleStep y x).2 =
      candidateBody screen target tol sampleStep y x := by
  unfold candidateBodyT candidateBody
  simp only [comparePixels]
  rw [← checkAnchorsT_snd, ← verifyMatchT_snd]
  cases almostEqualRGBA (screen.At (screen.Bounds.minX + x) (screen.Bounds.minY + y))
      (target.At target.Bounds.minX target.Bounds.minY) tol
  · rfl
  · rcases checkAnchorsT screen target x y tol
        (anchorList target.Bounds.Dx target.Bounds.Dy) with ⟨t1, _ | _⟩
    · rfl
    · rcases verifyMatchT screen target x y tol sampleStep with ⟨t2, _ | (_ | _)⟩ <;> rfl

theorem candidateBodyT_reads (screen target : Image) (tol sampleStep y x : Int)
    (hw : 1 ≤ target.Bounds.Dx) (hh : 1 ≤ target.Bounds.Dy) :
    ∀ r ∈ (candidateBodyT screen target tol sampleStep y x).1,
      isPixelRead screen target x y r := by
  have h0 := comparePixels_reads screen target x y tol 0 0
    (screen.Bounds.minX + x) (screen.Bounds.minY + y) target.Bounds.minX target.Bounds.minY
    (by omega) (by omega) (by omega) (by omega) le_rfl (by omega) le_rfl (by omega)
  have h1 := checkAnchorsT_reads screen target x y tol
    (anchorList target.Bounds.Dx target.Bounds.Dy)
    (anchorList_inside target.Bounds.Dx target.Bounds.Dy hw hh)
  have h2 := verifyMatchFlowT_reads screen target x y tol sampleStep hw hh
  rw [← verifyMatchT_fst] at h2
  intro r hr
  unfold candidateBodyT at hr
  dsimp only at hr
  rcases hc : comparePixels screen target (screen.Bounds.minX + x) (screen.Bounds.minY + y)
      target.Bounds.minX target.Bounds.minY tol with ⟨t0, _ | _⟩
  · rw [hc] at hr h0
    exact h0 r hr
  · rw [hc] at hr h0
    rcases ha : checkAnchorsT screen target x y tol
        (anchorList target.Bounds.Dx target.Bounds.Dy) with ⟨t1, _ | _⟩
    · rw [ha] at hr h1
      rcases List.mem_append.1 hr with h | h
      · exact h0 r h
      · exact h1 r h
    · rw [ha] at hr h1
      rcases hv : verifyMatchT screen target x y tol sampleStep with ⟨t2, _ | (_ | _)⟩ <;>
        rw [hv] at hr h2 <;>
        simp only [List.mem_append] at hr <;>
        rcases hr with (h | h) | h
      all_goals first | exact h0 r h | exact h1 r h | exact h2 r h

theorem findSubImageFastT_snd (screen target : Image) (tol scanStep sampleStep : Int) :
    (findSubImageFastT screen target tol scanStep sampleStep).2 =
      findSubImageFast screen target tol scanStep sampleStep := by
  unfold findSubImageFastT findSubImageFast
  by_cases hnd : target.Bounds.Dx = 0 ∨ target.Bounds.Dy = 0 ∨
      screen.Bounds.Dx < target.Bounds.Dx ∨ screen.Bounds.Dy < target.Bounds.Dy
  · simp only [if_pos hnd]
  · simp only [if_neg hnd]
    have hloop : (forLoopT (fun y => decide (y ≤ screen.Bounds.Dy - target.Bounds.Dy))
        (Autoptt.max 1 scanStep)
        (fun y => forLoopT (fun x => decide (x ≤ screen.Bounds.Dx - target.Bounds.Dx))
          (Autoptt.max 1 scanStep) (candidateBodyT screen target tol sampleStep y)
          (loopFuel (screen.Bounds.Dx - target.Bounds.Dx)) 0)
        (loopFuel (screen.Bounds.Dy - target.Bounds.Dy)) 0).2 =
        forLoop (fun y => decide (y ≤ screen.Bounds.Dy - target.Bounds.Dy))
          (Autoptt.max 1 scanStep)
          (fun y => forLoop (fun x => decide (x ≤ screen.Bounds.Dx - target.Bounds.Dx))
            (Autoptt.max 1 scanStep) (candidateBody screen target tol sampleStep y)
            (loopFuel (screen.Bounds.Dx - target.Bounds.Dx)) 0)
          (loopFuel (screen.Bounds.Dy - target.Bounds.Dy)) 0 := by
      rw [forLoopT_snd]
      simp only [forLoopT_snd, candidateBodyT_snd]
    rw [← hloop]
    rcases forLoopT (fun y => decide (y ≤ screen.Bounds.Dy - target.Bounds.Dy))
      (Autoptt.max 1 scanStep)
      (fun y => forLoopT (fun x => decide (x ≤ screen.Bounds.Dx - target.Bounds.Dx))
        (Autoptt.max 1 scanStep) (candidateBodyT screen target tol sampleStep y)
        (loopFuel (screen.Bounds.Dx - target.Bounds.Dx)) 0)
      (loopFuel (screen.Bounds.Dy - target.Bounds.Dy)) 0 with ⟨t, v | _ | _⟩ <;> rfl

theorem inBounds_of_isPixelRead (screen target : Image) (x y : Int) (r : Read)
    (hx0 : 0 ≤ x) (hx : x ≤ screen.Bounds.Dx - target.Bounds.Dx)
    (hy0 : 0 ≤ y) (hy : y ≤ screen.Bounds.Dy - target.Bounds.Dy)
    (h : isPixelRead screen target x y r) : r.inBounds screen target := by
  obtain ⟨tx, ty, h0, h1, h2, h3, rfl | rfl⟩ := h
  · unfold Rectangle.Dx Rectangle.Dy at *
    simp only [Read.inBounds]
    omega
  · unfold Rectangle.Dx Rectangle.Dy at *
    simp only [Read.inBounds]
    omega

/-- C10: on a target that fits in the region, every pixel read made by
`findSubImageFast` (the first-pixel check, the anchor checks and all samples
of `verifyMatch`, edge pass included) lies inside the bounds of the image it
is made on; the instrumented search that records the reads returns the result
of `findSubImageFast`. -/
theorem findSubImageFast_reads_inBounds (screen target : Image)
    (tol scanStep sampleStep : Int)
    (hw1 : 1 ≤ target.Bounds.Dx) (hw2 : target.Bounds.Dx ≤ screen.Bounds.Dx)
    (hh1 : 1 ≤ target.Bounds.Dy) (hh2 : target.Bounds.Dy ≤ screen.Bounds.Dy) :
    (findSubImageFastT screen target tol scanStep sampleStep).2 =
      findSubImageFast screen target tol scanStep sampleStep ∧
    ∀ r ∈ (findSubImageFastT screen target tol scanStep sampleStep).1,
      r.inBounds screen target := by
  refine ⟨findSubImageFastT_snd screen target tol scanStep sampleStep, ?_⟩
  have hnd : ¬ (target.Bounds.Dx = 0 ∨ target.Bounds.Dy = 0 ∨
      screen.Bounds.Dx < target.Bounds.Dx ∨ screen.Bounds.Dy < target.Bounds.Dy) := by omega
  have hs := one_le_max scanStep
  have hloop : ∀ r ∈ (forLoopT (fun y => decide (y ≤ screen.Bounds.Dy - target.Bounds.Dy))
      (Autoptt.max 1 scanStep)
      (fun y => forLoopT (fun x => decide (x ≤ screen.Bounds.Dx - target.Bounds.Dx))
        (Autoptt.max 1 scanStep) (candidateBodyT screen target tol sampleStep y)
        (loopFuel (screen.Bounds.Dx - target.Bounds.Dx)) 0)
      (loopFuel (screen.Bounds.Dy - target.Bounds.Dy)) 0).1, r.inBounds screen target := by
    have hs0 : 0 ≤ Autoptt.max 1 scanStep := by omega
    refine forLoopT_reads hs0 (fun r => r.inBounds screen target) 0 ?_ _ 0 le_rfl
    intro y hy0 hy
    refine forLoopT_reads hs0 (fun r => r.inBounds screen target) 0 ?_ _ 0 le_rfl
    intro x hx0 hx r hr
    simp only [decide_eq_true_iff] at hx hy
    exact inBounds_of_isPixelRead screen target x y r hx0 hx hy0 hy
      (candidateBodyT_reads screen target tol sampleStep y x hw1 hh1 r hr)
  unfold findSubImageFastT
  simp only [if_neg hnd]
  intro r hr
  rcases hl : forLoopT (fun y => decide (y ≤ screen.Bounds.Dy - target.Bounds.Dy))
      (Autoptt.max 1 scanStep)
      (fun y => forLoopT (fun x => decide (x ≤ screen.Bounds.Dx - target.Bounds.Dx))
        (Autoptt.max 1 scanStep) (candidateBodyT screen target tol sampleStep y)
        (loopFuel (screen.Bounds.Dx - target.Bounds.Dx)) 0)
      (loopFuel (screen.Bounds.Dy - target.Bounds.Dy)) 0 with ⟨t, v | _ | _⟩ <;>
    rw [hl] at hr hloop <;> exact hloop r hr

/-- Witness for C10: the 3 x 3 target in the 10 x 10 region with the
configured strides. -/
theorem findSubImageFast_reads_inBounds_witness :
    ((1 : Int) ≤ target3.Bounds.Dx ∧ target3.Bounds.Dx ≤ region10.Bounds.Dx ∧
      (1 : Int) ≤ target3.Bounds.Dy ∧ target3.Bounds.Dy ≤ region10.Bounds.Dy) ∧
    ∀ r ∈ (findSubImageFastT region10 target3 22 1 2).1, r.inBounds region10 target3 :=
  ⟨by decide, (findSubImageFast_reads_inBounds region10 target3 22 1 2
    (by decide) (by decide) (by decide) (by decide)).2⟩

end Autoptt
